import Mathlib

set_option maxHeartbeats 1000000
set_option maxRecDepth 100000

namespace RcMonitor

/-! # Verification of the rc-monitor DUML frame parser and payload codec

Shallow embedding of `src/rc_monitor.c` (DUML frame parser and
rc_button_physical_status_push payload decoder), of the payload encoder
`build_payload` from `emulator/rc_emulator.c`, and of the packet builder
`rcm_build_packet` (declared in `include/rc_monitor.h`; its definition is
not part of the sources, so it is modelled from the specification).

Bytes are modelled as `Nat` (with explicit `< 256` hypotheses where a
theorem needs them — the C `uint8_t` type guarantees this at every call
site), C `int16_t`/`int8_t` casts as explicit wrap-arounds on `Int`, and
byte buffers as `List Nat`.
-/

/-- The C cast to `int16_t` of an `int` expression: two's complement
wrap-around into `[-32768, 32767]`. -/
def toInt16 (n : Int) : Int := (n + 32768) % 65536 - 32768

/-- The C cast to `int8_t` of an `int` expression: two's complement
wrap-around into `[-128, 127]`. -/
def toInt8 (n : Int) : Int := (n + 128) % 256 - 128

/-- The C cast to `uint16_t` of an `int` expression. -/
def toUInt16wrap (n : Int) : Nat := (n % 65536).toNat

def crc8_table : List Nat :=
[
  0x00, 0x5e, 0xbc, 0xe2, 0x61, 0x3f, 0xdd, 0x83, 0xc2, 0x9c, 0x7e, 0x20, 0xa3, 0xfd, 0x1f, 0x41,
  0x9d, 0xc3, 0x21, 0x7f, 0xfc, 0xa2, 0x40, 0x1e, 0x5f, 0x01, 0xe3, 0xbd, 0x3e, 0x60, 0x82, 0xdc,
  0x23, 0x7d, 0x9f, 0xc1, 0x42, 0x1c, 0xfe, 0xa0, 0xe1, 0xbf, 0x5d, 0x03, 0x80, 0xde, 0x3c, 0x62,
  0xbe, 0xe0, 0x02, 0x5c, 0xdf, 0x81, 0x63, 0x3d, 0x7c, 0x22, 0xc0, 0x9e, 0x1d, 0x43, 0xa1, 0xff,
  0x46, 0x18, 0xfa, 0xa4, 0x27, 0x79, 0x9b, 0xc5, 0x84, 0xda, 0x38, 0x66, 0xe5, 0xbb, 0x59, 0x07,
  0xdb, 0x85, 0x67, 0x39, 0xba, 0xe4, 0x06, 0x58, 0x19, 0x47, 0xa5, 0xfb, 0x78, 0x26, 0xc4, 0x9a,
  0x65, 0x3b, 0xd9, 0x87, 0x04, 0x5a, 0xb8, 0xe6, 0xa7, 0xf9, 0x1b, 0x45, 0xc6, 0x98, 0x7a, 0x24,
  0xf8, 0xa6, 0x44, 0x1a, 0x99, 0xc7, 0x25, 0x7b, 0x3a, 0x64, 0x86, 0xd8, 0x5b, 0x05, 0xe7, 0xb9,
  0x8c, 0xd2, 0x30, 0x6e, 0xed, 0xb3, 0x51, 0x0f, 0x4e, 0x10, 0xf2, 0xac, 0x2f, 0x71, 0x93, 0xcd,
  0x11, 0x4f, 0xad, 0xf3, 0x70, 0x2e, 0xcc, 0x92, 0xd3, 0x8d, 0x6f, 0x31, 0xb2, 0xec, 0x0e, 0x50,
  0xaf, 0xf1, 0x13, 0x4d, 0xce, 0x90, 0x72, 0x2c, 0x6d, 0x33, 0xd1, 0x8f, 0x0c, 0x52, 0xb0, 0xee,
  0x32, 0x6c, 0x8e, 0xd0, 0x53, 0x0d, 0xef, 0xb1, 0xf0, 0xae, 0x4c, 0x12, 0x91, 0xcf, 0x2d, 0x73,
  0xca, 0x94, 0x76, 0x28, 0xab, 0xf5, 0x17, 0x49, 0x08, 0x56, 0xb4, 0xea, 0x69, 0x37, 0xd5, 0x8b,
  0x57, 0x09, 0xeb, 0xb5, 0x36, 0x68, 0x8a, 0xd4, 0x95, 0xcb, 0x29, 0x77, 0xf4, 0xaa, 0x48, 0x16,
  0xe9, 0xb7, 0x55, 0x0b, 0x88, 0xd6, 0x34, 0x6a, 0x2b, 0x75, 0x97, 0xc9, 0x4a, 0x14, 0xf6, 0xa8,
  0x74, 0x2a, 0xc8, 0x96, 0x15, 0x4b, 0xa9, 0xf7, 0xb6, 0xe8, 0x0a, 0x54, 0xd7, 0x89, 0x6b, 0x35]

def crc16_table : List Nat :=
[
  0x0000, 0x1189, 0x2312, 0x329b, 0x4624, 0x57ad, 0x6536, 0x74bf, 0x8c48, 0x9dc1, 0xaf5a, 0xbed3, 0xca6c, 0xdbe5, 0xe97e, 0xf8f7,
  0x1081, 0x0108, 0x3393, 0x221a, 0x56a5, 0x472c, 0x75b7, 0x643e, 0x9cc9, 0x8d40, 0xbfdb, 0xae52, 0xdaed, 0xcb64, 0xf9ff, 0xe876,
  0x2102, 0x308b, 0x0210, 0x1399, 0x6726, 0x76af, 0x4434, 0x55bd, 0xad4a, 0xbcc3, 0x8e58, 0x9fd1, 0xeb6e, 0xfae7, 0xc87c, 0xd9f5,
  0x3183, 0x200a, 0x1291, 0x0318, 0x77a7, 0x662e, 0x54b5, 0x453c, 0xbdcb, 0xac42, 0x9ed9, 0x8f50, 0xfbef, 0xea66, 0xd8fd, 0xc974,
  0x4204, 0x538d, 0x6116, 0x709f, 0x0420, 0x15a9, 0x2732, 0x36bb, 0xce4c, 0xdfc5, 0xed5e, 0xfcd7, 0x8868, 0x99e1, 0xab7a, 0xbaf3,
  0x5285, 0x430c, 0x7197, 0x601e, 0x14a1, 0x0528, 0x37b3, 0x263a, 0xdecd, 0xcf44, 0xfddf, 0xec56, 0x98e9, 0x8960, 0xbbfb, 0xaa72,
  0x6306, 0x728f, 0x4014, 0x519d, 0x2522, 0x34ab, 0x0630, 0x17b9, 0xef4e, 0xfec7, 0xcc5c, 0xddd5, 0xa96a, 0xb8e3, 0x8a78, 0x9bf1,
  0x7387, 0x620e, 0x5095, 0x411c, 0x35a3, 0x242a, 0x16b1, 0x0738, 0xffcf, 0xee46, 0xdcdd, 0xcd54, 0xb9eb, 0xa862, 0x9af9, 0x8b70,
  0x8408, 0x9581, 0xa71a, 0xb693, 0xc22c, 0xd3a5, 0xe13e, 0xf0b7, 0x0840, 0x19c9, 0x2b52, 0x3adb, 0x4e64, 0x5fed, 0x6d76, 0x7cff,
  0x9489, 0x8500, 0xb79b, 0xa612, 0xd2ad, 0xc324, 0xf1bf, 0xe036, 0x18c1, 0x0948, 0x3bd3, 0x2a5a, 0x5ee5, 0x4f6c, 0x7df7, 0x6c7e,
  0xa50a, 0xb483, 0x8618, 0x9791, 0xe32e, 0xf2a7, 0xc03c, 0xd1b5, 0x2942, 0x38cb, 0x0a50, 0x1bd9, 0x6f66, 0x7eef, 0x4c74, 0x5dfd,
  0xb58b, 0xa402, 0x9699, 0x8710, 0xf3af, 0xe226, 0xd0bd, 0xc134, 0x39c3, 0x284a, 0x1ad1, 0x0b58, 0x7fe7, 0x6e6e, 0x5cf5, 0x4d7c,
  0xc60c, 0xd785, 0xe51e, 0xf497, 0x8028, 0x91a1, 0xa33a, 0xb2b3, 0x4a44, 0x5bcd, 0x6956, 0x78df, 0x0c60, 0x1de9, 0x2f72, 0x3efb,
  0xd68d, 0xc704, 0xf59f, 0xe416, 0x90a9, 0x8120, 0xb3bb, 0xa232, 0x5ac5, 0x4b4c, 0x79d7, 0x685e, 0x1ce1, 0x0d68, 0x3ff3, 0x2e7a,
  0xe70e, 0xf687, 0xc41c, 0xd595, 0xa12a, 0xb0a3, 0x8238, 0x93b1, 0x6b46, 0x7acf, 0x4854, 0x59dd, 0x2d62, 0x3ceb, 0x0e70, 0x1ff9,
  0xf78f, 0xe606, 0xd49d, 0xc514, 0xb1ab, 0xa022, 0x92b9, 0x8330, 0x7bc7, 0x6a4e, 0x58d5, 0x495c, 0x3de3, 0x2c6a, 0x1ef1, 0x0f78]

/-- `duml_crc8` from `src/rc_monitor.c`: seed `0x77`,
update `crc := crc8_table[(crc ^ b) & 0xFF]`. -/
def duml_crc8 (data : List Nat) : Nat :=
  data.foldl (fun crc b => crc8_table.getD ((crc ^^^ b) &&& 0xFF) 0) 0x77

/-- One update step of `duml_crc16`:
`crc := crc16_table[(crc ^ b) & 0xFF] ^ (crc >> 8)`. -/
def crc16_step (crc b : Nat) : Nat :=
  (crc16_table.getD ((crc ^^^ b) &&& 0xFF) 0) ^^^ (crc >>> 8)

/-- `duml_crc16` from `src/rc_monitor.c`: seed `0x3692`. -/
def duml_crc16 (data : List Nat) : Nat :=
  data.foldl crc16_step 0x3692

/-- `read_u16_le(payload + i)` from `src/rc_monitor.c`:
`(uint16_t)p[0] | ((uint16_t)p[1] << 8)`. -/
def read_u16_le (p : List Nat) (i : Nat) : Nat :=
  p.getD i 0 ||| ((p.getD (i+1) 0) <<< 8)

/-- `rc_flight_mode_t` from `include/rc_monitor.h`. -/
inductive rc_flight_mode where
  | Sport
  | Normal
  | Tripod
  | Unknown
deriving DecidableEq

/-- The C enum cast `(rc_flight_mode_t)v` for `v = b2 & 0x03`. -/
def rc_flight_mode.ofBits : Nat → rc_flight_mode
  | 0 => .Sport
  | 1 => .Normal
  | 2 => .Tripod
  | _ => .Unknown

/-- The numeric value of an `rc_flight_mode_t` enum constant. -/
def rc_flight_mode.toNat : rc_flight_mode → Nat
  | .Sport => 0
  | .Normal => 1
  | .Tripod => 2
  | .Unknown => 3

/-- `rc_five_d_t` from `include/rc_monitor.h`. -/
structure rc_five_d where
  up : Bool
  down : Bool
  left : Bool
  right : Bool
  center : Bool
deriving DecidableEq

/-- `rc_stick_t` from `include/rc_monitor.h` (`int16_t` values as `Int`). -/
structure rc_stick where
  horizontal : Int
  vertical : Int
deriving DecidableEq

/-- `rc_state_t` from `include/rc_monitor.h`. -/
structure rc_state where
  pause : Bool
  gohome : Bool
  shutter : Bool
  record : Bool
  custom1 : Bool
  custom2 : Bool
  custom3 : Bool
  five_d : rc_five_d
  flight_mode : rc_flight_mode
  stick_right : rc_stick
  stick_left : rc_stick
  left_wheel : Int
  right_wheel : Int
  right_wheel_delta : Int
deriving DecidableEq

/-- The field-population part of `rcm_parse_payload` (lines 92-133 of
`src/rc_monitor.c`), after the argument checks have passed.  `memset 0`
followed by assignment to every field is the record literal. -/
def parse_payload_fields (p : List Nat) : rc_state :=
  let b0 := p.getD 0 0
  let b1 := p.getD 1 0
  let b2 := p.getD 2 0
  let b4 := p.getD 4 0
  let mag : Nat := (b4 >>> 1) &&& 0x1F
  let sign : Nat := (b4 >>> 6) &&& 1
  { pause   := ((b0 >>> 4) &&& 1) != 0
    gohome  := ((b0 >>> 5) &&& 1) != 0
    shutter := ((b0 >>> 6) &&& 1) != 0
    record  := ((b1 >>> 0) &&& 1) != 0
    custom1 := ((b2 >>> 2) &&& 1) != 0
    custom2 := ((b2 >>> 3) &&& 1) != 0
    custom3 := ((b2 >>> 4) &&& 1) != 0
    five_d  := { right  := ((b1 >>> 3) &&& 1) != 0
                 up     := ((b1 >>> 4) &&& 1) != 0
                 down   := ((b1 >>> 5) &&& 1) != 0
                 left   := ((b1 >>> 6) &&& 1) != 0
                 center := ((b1 >>> 7) &&& 1) != 0 }
    flight_mode := rc_flight_mode.ofBits (b2 &&& 0x03)
    stick_right := { horizontal := toInt16 ((read_u16_le p 5 : Int) - 0x400)
                     vertical   := toInt16 ((read_u16_le p 7 : Int) - 0x400) }
    stick_left  := { vertical   := toInt16 ((read_u16_le p 9 : Int) - 0x400)
                     horizontal := toInt16 ((read_u16_le p 11 : Int) - 0x400) }
    left_wheel  := toInt16 ((read_u16_le p 13 : Int) - 0x400)
    right_wheel := toInt16 ((read_u16_le p 15 : Int) - 0x400)
    right_wheel_delta := toInt8 (if sign ≠ 0 then (mag : Int) else -(mag : Int)) }

/-- `rcm_parse_payload` from `src/rc_monitor.c`.  The C function takes a
possibly-null byte pointer with a length and a possibly-null output
pointer and returns `0`/`-1`; this is modelled by an `Option` input span,
a flag for presence of the output, and an `Option` result (`none` is the
`-1` / ShortPayload failure). -/
def rcm_parse_payload (payload : Option (List Nat)) (outPresent : Bool) :
    Option rc_state :=
  match payload with
  | none => none
  | some p =>
    if outPresent = false ∨ p.length < 17 then none
    else some (parse_payload_fields p)

/-- `clamp` from `emulator/rc_emulator.c`. -/
def clamp (v lo hi : Int) : Int := if v < lo then lo else if v > hi then hi else v

/-- `put_u16_le` from `emulator/rc_emulator.c`. -/
def put_u16_le (v : Nat) : List Nat := [v &&& 0xFF, (v >>> 8) &&& 0xFF]

/-- `build_payload` from `emulator/rc_emulator.c` (the payload encoder,
inverse of `rcm_parse_payload`).  The emulator's `emu_state_t` mirrors
`rc_state_t` field for field, so the encoder is stated directly over
`rc_state`. -/
def build_payload (e : rc_state) : List Nat :=
  let b0 : Nat := ((if e.pause then 1 else 0) <<< 4) |||
                  ((if e.gohome then 1 else 0) <<< 5) |||
                  ((if e.shutter then 1 else 0) <<< 6)
  let b1 : Nat := ((if e.record then 1 else 0) <<< 0) |||
                  ((if e.five_d.right then 1 else 0) <<< 3) |||
                  ((if e.five_d.up then 1 else 0) <<< 4) |||
                  ((if e.five_d.down then 1 else 0) <<< 5) |||
                  ((if e.five_d.left then 1 else 0) <<< 6) |||
                  ((if e.five_d.center then 1 else 0) <<< 7)
  let b2 : Nat := (e.flight_mode.toNat &&& 0x03) |||
                  ((if e.custom1 then 1 else 0) <<< 2) |||
                  ((if e.custom2 then 1 else 0) <<< 3) |||
                  ((if e.custom3 then 1 else 0) <<< 4)
  let d : Int := clamp e.right_wheel_delta (-31) 31
  let b4 : Nat := if d > 0 then ((d.toNat <<< 1) ||| (1 <<< 6))
                  else if d < 0 then ((-d).toNat <<< 1)
                  else 0
  [b0, b1, b2, 0, b4]
    ++ put_u16_le (toUInt16wrap (e.stick_right.horizontal + 0x400))
    ++ put_u16_le (toUInt16wrap (e.stick_right.vertical + 0x400))
    ++ put_u16_le (toUInt16wrap (e.stick_left.vertical + 0x400))
    ++ put_u16_le (toUInt16wrap (e.stick_left.horizontal + 0x400))
    ++ put_u16_le (toUInt16wrap (e.left_wheel + 0x400))
    ++ put_u16_le (toUInt16wrap (e.right_wheel + 0x400))

/-! ## DUML frame parser (`src/rc_monitor.c`, lines 136-335)

The C parser context holds a 4096-byte circular array with a head index
and an occupancy count; `ring_peek`/`ring_copy`/`ring_consume`/`ring_push`
implement a FIFO over it.  The embedding represents the FIFO content
directly: a `List Nat` of the buffered bytes, oldest first (`ring_peek p i`
is `getD i`, `ring_consume n` is `drop n`, `ring_push` appends, silently
losing the oldest byte when full). -/

def RING_SIZE : Nat := 4096
def DUML_SOF : Nat := 0x55
def DUML_MIN_FRAME_LEN : Nat := 13
def DUML_MAX_FRAME_LEN : Nat := 1400
def RC_PUSH_PAYLOAD_LEN : Nat := 17
def DUML_CMD_SET_RC : Nat := 0x06
def DUML_CMD_RC_PUSH : Nat := 0x05

/-- The two states of the reassembly machine (`SCAN_SOF`, `READ_FRAME`). -/
inductive PState where
  | scanSof
  | readFrame
deriving DecidableEq

/-- `struct rcm_parser` from `src/rc_monitor.c` (the callback and userdata
are represented by returning the emitted snapshots instead). -/
structure RcmParser where
  ring : List Nat
  pstate : PState
  frame_len : Nat
deriving DecidableEq

/-- `ring_push`: append a byte; when the ring is full the oldest byte is
silently lost. -/
def ring_push (r : List Nat) (b : Nat) : List Nat :=
  if r.length < RING_SIZE then r ++ [b] else r.drop 1 ++ [b]

/-- `rcm_create` (the `calloc` zeroes head, count, state and frame_len). -/
def rcm_create : RcmParser := ⟨[], .scanSof, 0⟩

/-- `rcm_reset`. -/
def rcm_reset (_p : RcmParser) : RcmParser := ⟨[], .scanSof, 0⟩

/-- The fallback scan loop of `try_decode_frame` (lines 301-313):
`for (off = 8; off <= 12 && off + 2 + 17 <= frame_len - 2; off++)`,
returning the first offset whose bytes match the pair `(0x06, 0x05)`. -/
def scan_rc_offset (frame : List Nat) (fl : Nat) (off : Nat) : Option Nat :=
  if h : off ≤ 12 ∧ off + 2 + RC_PUSH_PAYLOAD_LEN ≤ fl - 2 then
    if frame.getD off 0 = DUML_CMD_SET_RC ∧ frame.getD (off+1) 0 = DUML_CMD_RC_PUSH then
      some off
    else
      scan_rc_offset frame fl (off+1)
  else none
termination_by 13 - off
decreasing_by omega

/-- The dispatch part of `try_decode_frame` (lines 278-316), taking the
copied-out frame (`frame`) and its length (`p->frame_len`), and returning
the decoded snapshot when the frame is an RC push (return 1 in C) or
`none` (return 0). -/
def frame_dispatch (frame : List Nat) (fl : Nat) : Option rc_state :=
  if DUML_MIN_FRAME_LEN ≤ fl ∧
     frame.getD 9 0 = DUML_CMD_SET_RC ∧ frame.getD 10 0 = DUML_CMD_RC_PUSH ∧
     RC_PUSH_PAYLOAD_LEN ≤ fl - 13 then
    rcm_parse_payload (some ((frame.drop 11).take (fl - 13))) true
  else if 14 ≤ fl then
    match scan_rc_offset frame fl 8 with
    | some off => rcm_parse_payload (some ((frame.drop (off + 2)).take (fl - 2 - (off + 2)))) true
    | none => none
  else none

/-- Termination measure for the `while (p->count > 0)` loop of
`try_decode_frame`: every `continue` consumes at least one byte, except
the transition into `READ_FRAME` (which cannot repeat without consuming)
and the degenerate `frame_len = 0` resynchronization (unreachable from
created parsers, see the C10 invariant, but the measure covers it). -/
def pmeasure (p : RcmParser) : Nat :=
  3 * p.ring.length +
    (match p.pstate with
     | .scanSof => 2
     | .readFrame => if p.frame_len = 0 then 3 else 0)

/-- `try_decode_frame` from `src/rc_monitor.c` (lines 207-320).  Returns
the parser after the call, the C return value (1: RC push decoded and
callback invoked, 0: a non-RC frame consumed, -1: more data needed), and
the snapshot passed to the callback when the return value is 1. -/
def try_decode_frame (p : RcmParser) : RcmParser × Int × Option rc_state :=
  if h0 : p.ring.length = 0 then (p, -1, none)
  else
    match hs : p.pstate with
    | .scanSof =>
      if p.ring.getD 0 0 ≠ DUML_SOF then
        try_decode_frame ⟨p.ring.drop 1, .scanSof, p.frame_len⟩
      else if p.ring.length < 4 then (p, -1, none)
      else if duml_crc8 (p.ring.take 3) ≠ p.ring.getD 3 0 then
        try_decode_frame ⟨p.ring.drop 1, .scanSof, p.frame_len⟩
      else
        if hfl : ((p.ring.getD 1 0) ||| ((p.ring.getD 2 0) <<< 8)) &&& 0x03FF < DUML_MIN_FRAME_LEN ∨
            DUML_MAX_FRAME_LEN < ((p.ring.getD 1 0) ||| ((p.ring.getD 2 0) <<< 8)) &&& 0x03FF then
          try_decode_frame ⟨p.ring.drop 1, .scanSof, ((p.ring.getD 1 0) ||| ((p.ring.getD 2 0) <<< 8)) &&& 0x03FF⟩
        else
          try_decode_frame ⟨p.ring, .readFrame, ((p.ring.getD 1 0) ||| ((p.ring.getD 2 0) <<< 8)) &&& 0x03FF⟩
    | .readFrame =>
      if hlen : p.ring.length < p.frame_len then (p, -1, none)
      else
        if duml_crc16 ((p.ring.take p.frame_len).take (p.frame_len - 2)) ≠
            ((p.ring.take p.frame_len).getD (p.frame_len - 2) 0) |||
              (((p.ring.take p.frame_len).getD (p.frame_len - 1) 0) <<< 8) then
          try_decode_frame ⟨p.ring.drop p.frame_len, .scanSof, p.frame_len⟩
        else
          match frame_dispatch (p.ring.take p.frame_len) p.frame_len with
          | some st => (⟨p.ring.drop p.frame_len, .scanSof, p.frame_len⟩, 1, some st)
          | none => (⟨p.ring.drop p.frame_len, .scanSof, p.frame_len⟩, 0, none)
termination_by pmeasure p
decreasing_by
  all_goals simp only [pmeasure, hs, List.length_drop]
  all_goals try omega
  all_goals try simp only [DUML_MIN_FRAME_LEN, DUML_MAX_FRAME_LEN] at *
  all_goals split <;> omega

/-- The `while ((ret = try_decode_frame(p)) >= 0)` drain loop of
`rcm_feed`, accumulating the decoded count and the emitted snapshots.
The `ring.length` test in the guard is the loop's termination measure; a
non-negative return always consumes at least one byte
(`try_decode_frame_progress` below), so it never fails. -/
def drain (p : RcmParser) : RcmParser × Nat × List rc_state :=
  let res := try_decode_frame p
  if h : 0 ≤ res.2.1 ∧ res.1.ring.length < p.ring.length then
    let rest := drain res.1
    (rest.1, res.2.1.toNat + rest.2.1, res.2.2.toList ++ rest.2.2)
  else (res.1, 0, [])
termination_by p.ring.length
decreasing_by exact h.2

/-- `rcm_feed` from `src/rc_monitor.c` (lines 322-335): push each byte,
then drain all decodable frames.  Returns the parser, the number of RC
push packets decoded (the C return value), and the emitted snapshots in
callback order. -/
def rcm_feed (p : RcmParser) (data : List Nat) : RcmParser × Nat × List rc_state :=
  match data with
  | [] => (p, 0, [])
  | b :: rest =>
    let d1 := drain ⟨ring_push p.ring b, p.pstate, p.frame_len⟩
    let d2 := rcm_feed d1.1 rest
    (d2.1, d1.2.1 + d2.2.1, d1.2.2 ++ d2.2.2)

/-- Feeding a partition of a byte stream chunk by chunk (claim C2's
left-hand side), accumulating counts and callback sequences. -/
def feed_chunks (p : RcmParser) (chunks : List (List Nat)) :
    RcmParser × Nat × List rc_state :=
  match chunks with
  | [] => (p, 0, [])
  | c :: rest =>
    let d1 := rcm_feed p c
    let d2 := feed_chunks d1.1 rest
    (d2.1, d1.2.1 + d2.2.1, d1.2.2 ++ d2.2.2)

/-! ## Packet builder (modelled from the spec) -/

/-- Builder error kinds (spec section 7). -/
inductive BuildError where
  | InvalidArgs
  | BufferTooSmall
  | TooLarge
deriving DecidableEq

/-- Modelled from the spec: `rcm_build_packet` is declared in
`include/rc_monitor.h` and called by the tests, the fuzzer and the
emulator, but its definition is not among the repository's source files;
this follows spec section 4.3 step by step.  The output buffer is
represented by its capacity plus a presence flag, the payload pointer by
an optional list read index-by-index up to `payload_len` (the C pointer
contract), and the error return by `Except`. -/
def rcm_build_packet (outCap : Nat) (outPresent : Bool)
    (sender_type sender_index receiver_type receiver_index : Nat)
    (seq_num : Nat) (pack_type ack_type encrypt_type : Nat)
    (cmd_set cmd_id : Nat)
    (payload : Option (List Nat)) (payload_len : Nat) :
    Except BuildError (List Nat) :=
  let L := 11 + payload_len + 2
  if outCap < L then .error .BufferTooSmall
  else if 1400 < L then .error .TooLarge
  else if outPresent = false ∨ (payload = none ∧ 0 < payload_len) then .error .InvalidArgs
  else
    let len_ver := L ||| (1 <<< 10)
    let hdr3 : List Nat := [0x55, len_ver &&& 0xFF, (len_ver >>> 8) &&& 0xFF]
    let body : List Nat := hdr3 ++ [duml_crc8 hdr3] ++
      [(sender_type &&& 0x1F) ||| (sender_index <<< 5),
       (receiver_type &&& 0x1F) ||| (receiver_index <<< 5),
       seq_num &&& 0xFF, (seq_num >>> 8) &&& 0xFF,
       (pack_type <<< 7) ||| (ack_type <<< 5) ||| (encrypt_type &&& 7),
       cmd_set, cmd_id] ++
      (List.range payload_len).map (fun i => (payload.getD []).getD i 0)
    .ok (body ++ put_u16_le (duml_crc16 body))

/-! ## Frame predicates and reference dispatch (claim-side definitions) -/

/-- A well-formed controller-push frame of total length `L`, as the spec's
wire layout (section 3) describes it: correct start byte, a length field
that matches the actual length, both checksums valid, the command pair
`(0x06, 0x05)` at the canonical offsets, and a payload of at least 17
bytes. -/
def WellFormedPushFrame (F : List Nat) (L : Nat) : Prop :=
  F.length = L ∧
  DUML_MIN_FRAME_LEN ≤ L ∧ L ≤ DUML_MAX_FRAME_LEN ∧
  (∀ b ∈ F, b < 256) ∧
  F.getD 0 0 = DUML_SOF ∧
  ((F.getD 1 0) ||| ((F.getD 2 0) <<< 8)) &&& 0x03FF = L ∧
  duml_crc8 (F.take 3) = F.getD 3 0 ∧
  duml_crc16 (F.take (L - 2)) = (F.getD (L - 2) 0) ||| ((F.getD (L - 1) 0) <<< 8) ∧
  F.getD 9 0 = DUML_CMD_SET_RC ∧ F.getD 10 0 = DUML_CMD_RC_PUSH ∧
  RC_PUSH_PAYLOAD_LEN ≤ L - 13

instance (F : List Nat) (L : Nat) : Decidable (WellFormedPushFrame F L) := by
  unfold WellFormedPushFrame
  infer_instance

/-- The fallback-scan match condition at offset `k`, as the spec words
it: `k + 2 + 17 ≤ L - 2` and the pair `[0x06, 0x05]` at offsets `k`,
`k + 1`. -/
def scan_pred (frame : List Nat) (fl : Nat) (k : Nat) : Bool :=
  decide (k + 2 + 17 ≤ fl - 2) && (frame.getD k 0 == 0x06) && (frame.getD (k+1) 0 == 0x05)

/-- Claim C3's description of the dispatch decision, written from the
spec's words: the canonical strategy at bytes 9/10 first, otherwise the
first offset `k` among 8..12 satisfying `scan_pred`, scanned in
increasing order via `List.find?`. -/
def dispatch_reference (frame : List Nat) (L : Nat) : Int × Option rc_state :=
  if frame.getD 9 0 = 0x06 ∧ frame.getD 10 0 = 0x05 ∧ 17 ≤ L - 13 then
    (1, rcm_parse_payload (some ((frame.drop 11).take (L - 13))) true)
  else
    match (List.range' 8 5).find? (scan_pred frame L) with
    | some k => (1, rcm_parse_payload (some ((frame.drop (k + 2)).take (L - 2 - (k + 2)))) true)
    | none => (0, none)

/-- The parser invariant of claim C10: bounded ring occupancy, and a
recorded frame length inside [13, 1400] whenever a frame is being read. -/
def ParserInv (p : RcmParser) : Prop :=
  p.ring.length ≤ RING_SIZE ∧
  (p.pstate = .readFrame → DUML_MIN_FRAME_LEN ≤ p.frame_len ∧ p.frame_len ≤ DUML_MAX_FRAME_LEN)

/-- Parser states reachable from `rcm_create` by `rcm_feed` and
`rcm_reset`. -/
inductive Reachable : RcmParser → Prop where
  | create : Reachable rcm_create
  | feed (p : RcmParser) (data : List Nat) : Reachable p → Reachable (rcm_feed p data).1
  | reset (p : RcmParser) : Reachable p → Reachable (rcm_reset p)

/-! ## Concrete frames used as test vectors -/

/-- A concrete 30-byte controller-push frame: command pair `(0x06, 0x05)`
at bytes 9/10, a 17-byte all-zero payload, and valid header and body
checksums. -/
def push30 : List Nat :=
  [0x55, 30, 4, 138, 6, 2, 0, 0, 0, 6, 5] ++ List.replicate 17 0 ++ [62, 79]

/-- A concrete 43-byte DUML frame (itself with valid checksums) whose
payload region embeds `push30` verbatim starting at offset 11. -/
def nest43 : List Nat := [0x55, 43, 4, 88, 6, 2, 0, 0, 0, 6, 5] ++ push30 ++ [22, 30]

/-! ## Helper lemmas and claim theorems -/





/-! helper lemmas -/

theorem bit_extract_eq_testBit (b k : Nat) : (((b >>> k) &&& 1) != 0) = b.testBit k := by
  rw [Nat.testBit_to_div_mod, Nat.and_one_is_mod, Nat.shiftRight_eq_div_pow]
  rcases Nat.mod_two_eq_zero_or_one (b / 2 ^ k) with h | h <;> simp [h]

theorem lo_or_hi_shift (a b : Nat) (ha : a < 256) : a ||| (b <<< 8) = a + 256 * b := by
  rw [Nat.shiftLeft_eq, Nat.or_comm, mul_comm]
  rw [← Nat.mul_add_lt_is_or (b := a) (by simpa using ha) b]
  omega

theorem and_three_eq_mod (b : Nat) : b &&& 3 = b % 4 := by
  have h := Nat.and_pow_two_sub_one_eq_mod b 2
  norm_num at h
  exact h

theorem getD_lt_of_forall {p : List Nat} (hb : ∀ x ∈ p, x < 256) {i : Nat}
    (hi : i < p.length) : p.getD i 0 < 256 := by
  rw [List.getD_eq_getElem?_getD, List.getElem?_eq_getElem hi]
  exact hb _ (List.getElem_mem hi)

theorem read_u16_le_eq {p : List Nat} (hb : ∀ x ∈ p, x < 256) {i : Nat}
    (hi : i < p.length) :
    read_u16_le p i = p.getD i 0 + 256 * p.getD (i+1) 0 :=
  lo_or_hi_shift _ _ (getD_lt_of_forall hb hi)

theorem toInt8_small {n : Int} (h1 : -128 ≤ n) (h2 : n ≤ 127) : toInt8 n = n := by
  unfold toInt8
  omega

theorem mag_le (b : Nat) : (b >>> 1) &&& 0x1F ≤ 31 := Nat.and_le_right

/-- C1: for every byte array of length ≥ 17 and a present destination,
`rcm_parse_payload` succeeds and the snapshot is exactly the reference
layout of spec section 3. -/
theorem rcm_parse_payload_layout (p : List Nat) (h17 : 17 ≤ p.length)
    (hb : ∀ x ∈ p, x < 256) :
    rcm_parse_payload (some p) true = some
      { pause := (p.getD 0 0).testBit 4
        gohome := (p.getD 0 0).testBit 5
        shutter := (p.getD 0 0).testBit 6
        record := (p.getD 1 0).testBit 0
        custom1 := (p.getD 2 0).testBit 2
        custom2 := (p.getD 2 0).testBit 3
        custom3 := (p.getD 2 0).testBit 4
        five_d := { right := (p.getD 1 0).testBit 3
                    up := (p.getD 1 0).testBit 4
                    down := (p.getD 1 0).testBit 5
                    left := (p.getD 1 0).testBit 6
                    center := (p.getD 1 0).testBit 7 }
        flight_mode := rc_flight_mode.ofBits (p.getD 2 0 % 4)
        stick_right := { horizontal := toInt16 ((p.getD 5 0 + 256 * p.getD 6 0 : Nat) - (0x400 : Int))
                         vertical := toInt16 ((p.getD 7 0 + 256 * p.getD 8 0 : Nat) - (0x400 : Int)) }
        stick_left := { vertical := toInt16 ((p.getD 9 0 + 256 * p.getD 10 0 : Nat) - (0x400 : Int))
                        horizontal := toInt16 ((p.getD 11 0 + 256 * p.getD 12 0 : Nat) - (0x400 : Int)) }
        left_wheel := toInt16 ((p.getD 13 0 + 256 * p.getD 14 0 : Nat) - (0x400 : Int))
        right_wheel := toInt16 ((p.getD 15 0 + 256 * p.getD 16 0 : Nat) - (0x400 : Int))
        right_wheel_delta :=
          if (p.getD 4 0).testBit 6 then ((p.getD 4 0 / 2 % 32 : Nat) : Int)
          else -((p.getD 4 0 / 2 % 32 : Nat) : Int) } := by
  rw [rcm_parse_payload, if_neg (by simp; omega)]
  refine congrArg some ?_
  rw [parse_payload_fields]
  have hmag : ∀ b : Nat, (b >>> 1) &&& 0x1F = b / 2 % 32 := by
    intro b
    have h := Nat.and_pow_two_sub_one_eq_mod (b >>> 1) 5
    rw [Nat.shiftRight_eq_div_pow] at h
    norm_num at h
    exact h
  have hsign : ∀ b : Nat, ((b >>> 6) &&& 1 ≠ 0) ↔ b.testBit 6 = true := by
    intro b
    rw [← bit_extract_eq_testBit]
    simp [bne_iff_ne]
  simp only [rc_state.mk.injEq, rc_five_d.mk.injEq, rc_stick.mk.injEq]
  refine ⟨?_, ?_, ?_, ?_, ?_, ?_, ?_, ⟨?_, ?_, ?_, ?_, ?_⟩, ?_, ⟨?_, ?_⟩, ⟨?_, ?_⟩, ?_, ?_, ?_⟩
  all_goals try exact bit_extract_eq_testBit _ _
  all_goals try (rw [read_u16_le_eq hb (by omega)])
  · rw [and_three_eq_mod]
  · rw [hmag]
    have hle : p.getD 4 0 / 2 % 32 ≤ 31 := by omega
    by_cases h6 : (p.getD 4 0).testBit 6
    · rw [if_pos ((hsign _).mpr h6), if_pos h6]
      unfold toInt8
      omega
    · rw [if_neg (fun hc => h6 ((hsign _).mp hc)), if_neg h6]
      unfold toInt8
      omega


theorem getD_append_left_of_lt {l t : List Nat} {i : Nat} (hi : i < l.length) :
    (l ++ t).getD i 0 = l.getD i 0 := by
  rw [List.getD_eq_getElem?_getD, List.getD_eq_getElem?_getD,
    List.getElem?_append_left hi]

theorem parse_payload_fields_congr {p q : List Nat}
    (h : ∀ i, i < 17 → p.getD i 0 = q.getD i 0) :
    parse_payload_fields p = parse_payload_fields q := by
  rw [parse_payload_fields, parse_payload_fields]
  rw [read_u16_le, read_u16_le, read_u16_le, read_u16_le, read_u16_le, read_u16_le,
    read_u16_le, read_u16_le, read_u16_le, read_u16_le, read_u16_le, read_u16_le]
  rw [h 0 (by omega), h 1 (by omega), h 2 (by omega), h 4 (by omega),
    h 5 (by omega), h 6 (by omega), h 7 (by omega), h 8 (by omega),
    h 9 (by omega), h 10 (by omega), h 11 (by omega), h 12 (by omega),
    h 13 (by omega), h 14 (by omega), h 15 (by omega), h 16 (by omega)]

/-- C7: the ShortPayload failure happens exactly for an absent span, an
absent destination or a length below 17; trailing bytes beyond the first
17 never change the result. -/
theorem rcm_parse_payload_error_iff :
    (∀ (pl : Option (List Nat)) (op : Bool),
      rcm_parse_payload pl op = none ↔
        (pl = none ∨ op = false ∨ ∃ l, pl = some l ∧ l.length < 17)) ∧
    (∀ (l extra : List Nat), 17 ≤ l.length →
      rcm_parse_payload (some (l ++ extra)) true = rcm_parse_payload (some l) true) := by
  constructor
  · intro pl op
    match pl with
    | none => simp [rcm_parse_payload]
    | some l =>
      rw [rcm_parse_payload]
      constructor
      · intro h
        by_cases hc : op = false ∨ l.length < 17
        · rcases hc with hc | hc
          · exact Or.inr (Or.inl hc)
          · exact Or.inr (Or.inr ⟨l, rfl, hc⟩)
        · rw [if_neg hc] at h
          exact absurd h (by simp)
      · intro h
        rcases h with h | h | ⟨l', hl', hlen⟩
        · exact absurd h (by simp)
        · rw [if_pos (Or.inl h)]
        · cases hl'
          rw [if_pos (Or.inr hlen)]
  · intro l extra h17
    rw [rcm_parse_payload, rcm_parse_payload]
    rw [if_neg (by simp; omega), if_neg (by simp; omega)]
    exact congrArg some (parse_payload_fields_congr
      (fun i hi => getD_append_left_of_lt (by omega)))


theorem div_pow_mod_two_eq {x y : Nat} (k : Nat) (h : x.testBit k = y.testBit k) :
    x / 2^k % 2 = y / 2^k % 2 := by
  rw [Nat.testBit_to_div_mod, Nat.testBit_to_div_mod] at h
  have hx := Nat.mod_two_eq_zero_or_one (x / 2^k)
  have hy := Nat.mod_two_eq_zero_or_one (y / 2^k)
  rcases hx with hx | hx <;> rcases hy with hy | hy <;> simp [hx, hy] at h ⊢

theorem div_lit_mod_two_eq {x y k : Nat} (d : Nat) (hd : 2^k = d)
    (h : x.testBit k = y.testBit k) : x / d % 2 = y / d % 2 := by
  subst hd
  exact div_pow_mod_two_eq k h

/-- C8: reserved bits (byte 0 bits 0-3 and 7; byte 1 bits 1-2; byte 2 bits
5-7; byte 4 bits 0 and 7) and byte 3 never influence any decoded field. -/
theorem rcm_parse_payload_reserved_independent (p1 p2 : List Nat)
    (hl1 : 17 ≤ p1.length) (hl2 : 17 ≤ p2.length)
    (hb0 : ∀ k ∈ [4, 5, 6], (p1.getD 0 0).testBit k = (p2.getD 0 0).testBit k)
    (hb1 : ∀ k ∈ [0, 3, 4, 5, 6, 7], (p1.getD 1 0).testBit k = (p2.getD 1 0).testBit k)
    (hb2 : ∀ k ∈ [0, 1, 2, 3, 4], (p1.getD 2 0).testBit k = (p2.getD 2 0).testBit k)
    (hb4 : ∀ k ∈ [1, 2, 3, 4, 5, 6], (p1.getD 4 0).testBit k = (p2.getD 4 0).testBit k)
    (han : ∀ i, 5 ≤ i → i ≤ 16 → p1.getD i 0 = p2.getD i 0) :
    rcm_parse_payload (some p1) true = rcm_parse_payload (some p2) true := by
  have hbit : ∀ a b : Nat, ∀ k : Nat, a.testBit k = b.testBit k →
      (((a >>> k) &&& 1) != 0) = (((b >>> k) &&& 1) != 0) := by
    intro a b k h
    rw [bit_extract_eq_testBit, bit_extract_eq_testBit, h]
  have hmag : ∀ b : Nat, (b >>> 1) &&& 0x1F = b / 2 % 32 := by
    intro b
    have h := Nat.and_pow_two_sub_one_eq_mod (b >>> 1) 5
    rw [Nat.shiftRight_eq_div_pow] at h
    norm_num at h
    exact h
  rw [rcm_parse_payload, rcm_parse_payload, if_neg (by simp; omega),
    if_neg (by simp; omega)]
  refine congrArg some ?_
  rw [parse_payload_fields, parse_payload_fields]
  rw [read_u16_le, read_u16_le, read_u16_le, read_u16_le, read_u16_le, read_u16_le,
    read_u16_le, read_u16_le, read_u16_le, read_u16_le, read_u16_le, read_u16_le]
  rw [han 5 (by omega) (by omega), han 6 (by omega) (by omega),
    han 7 (by omega) (by omega), han 8 (by omega) (by omega),
    han 9 (by omega) (by omega), han 10 (by omega) (by omega),
    han 11 (by omega) (by omega), han 12 (by omega) (by omega),
    han 13 (by omega) (by omega), han 14 (by omega) (by omega),
    han 15 (by omega) (by omega), han 16 (by omega) (by omega)]
  rw [hbit _ _ 4 (hb0 4 (by norm_num)), hbit _ _ 5 (hb0 5 (by norm_num)),
    hbit _ _ 6 (hb0 6 (by norm_num)),
    hbit _ _ 0 (hb1 0 (by norm_num)), hbit _ _ 3 (hb1 3 (by norm_num)),
    hbit _ _ 4 (hb1 4 (by norm_num)), hbit _ _ 5 (hb1 5 (by norm_num)),
    hbit _ _ 6 (hb1 6 (by norm_num)), hbit _ _ 7 (hb1 7 (by norm_num)),
    hbit _ _ 2 (hb2 2 (by norm_num)), hbit _ _ 3 (hb2 3 (by norm_num)),
    hbit _ _ 4 (hb2 4 (by norm_num))]
  have hfm : p1.getD 2 0 &&& 0x03 = p2.getD 2 0 &&& 0x03 := by
    rw [and_three_eq_mod, and_three_eq_mod]
    have a0 := div_lit_mod_two_eq 1 (by norm_num) (hb2 0 (by norm_num))
    have a1 := div_lit_mod_two_eq 2 (by norm_num) (hb2 1 (by norm_num))
    omega
  rw [hfm]
  have hm : (p1.getD 4 0 >>> 1) &&& 0x1F = (p2.getD 4 0 >>> 1) &&& 0x1F := by
    rw [hmag, hmag]
    have a1 := div_lit_mod_two_eq 2 (by norm_num) (hb4 1 (by norm_num))
    have a2 := div_lit_mod_two_eq 4 (by norm_num) (hb4 2 (by norm_num))
    have a3 := div_lit_mod_two_eq 8 (by norm_num) (hb4 3 (by norm_num))
    have a4 := div_lit_mod_two_eq 16 (by norm_num) (hb4 4 (by norm_num))
    have a5 := div_lit_mod_two_eq 32 (by norm_num) (hb4 5 (by norm_num))
    omega
  rw [hm]
  have hiff : (p1.getD 4 0 >>> 6 &&& 1 ≠ 0) ↔ (p2.getD 4 0 >>> 6 &&& 1 ≠ 0) := by
    rw [← bne_iff_ne, ← bne_iff_ne, hbit _ _ 6 (hb4 6 (by norm_num))]
  by_cases hc : p1.getD 4 0 >>> 6 &&& 1 ≠ 0
  · rw [if_pos hc, if_pos (hiff.mp hc)]
  · rw [if_neg hc, if_neg (fun hx => hc (hiff.mpr hx))]


theorem parse_payload_fields_explicit
    (x0 x1 x2 x3 x4 x5 x6 x7 x8 x9 x10 x11 x12 x13 x14 x15 x16 : Nat) :
    parse_payload_fields [x0, x1, x2, x3, x4, x5, x6, x7, x8, x9, x10, x11, x12, x13, x14, x15, x16] =
    { pause   := ((x0 >>> 4) &&& 1) != 0
      gohome  := ((x0 >>> 5) &&& 1) != 0
      shutter := ((x0 >>> 6) &&& 1) != 0
      record  := ((x1 >>> 0) &&& 1) != 0
      custom1 := ((x2 >>> 2) &&& 1) != 0
      custom2 := ((x2 >>> 3) &&& 1) != 0
      custom3 := ((x2 >>> 4) &&& 1) != 0
      five_d  := { right  := ((x1 >>> 3) &&& 1) != 0
                   up     := ((x1 >>> 4) &&& 1) != 0
                   down   := ((x1 >>> 5) &&& 1) != 0
                   left   := ((x1 >>> 6) &&& 1) != 0
                   center := ((x1 >>> 7) &&& 1) != 0 }
      flight_mode := rc_flight_mode.ofBits (x2 &&& 0x03)
      stick_right := { horizontal := toInt16 (((x5 ||| (x6 <<< 8)) : Nat) - (0x400 : Int))
                       vertical   := toInt16 (((x7 ||| (x8 <<< 8)) : Nat) - (0x400 : Int)) }
      stick_left  := { vertical   := toInt16 (((x9 ||| (x10 <<< 8)) : Nat) - (0x400 : Int))
                       horizontal := toInt16 (((x11 ||| (x12 <<< 8)) : Nat) - (0x400 : Int)) }
      left_wheel  := toInt16 (((x13 ||| (x14 <<< 8)) : Nat) - (0x400 : Int))
      right_wheel := toInt16 (((x15 ||| (x16 <<< 8)) : Nat) - (0x400 : Int))
      right_wheel_delta :=
        toInt8 (if ((x4 >>> 6) &&& 1) ≠ 0 then (((x4 >>> 1) &&& 0x1F : Nat) : Int)
                else -(((x4 >>> 1) &&& 0x1F : Nat) : Int)) } := rfl

theorem axis_roundtrip (v : Int) (h1 : -1024 ≤ v) (h2 : v ≤ 1023) :
    toInt16 ((((toUInt16wrap (v + 0x400) &&& 0xFF) |||
      (((toUInt16wrap (v + 0x400) >>> 8) &&& 0xFF) <<< 8) : Nat) : Int) - 0x400) = v := by
  have hnval : toUInt16wrap (v + 0x400) = (v + 1024).toNat := by
    unfold toUInt16wrap
    congr 1
    omega
  rw [hnval]
  set n := (v + 1024).toNat with hn
  have hlt : n < 65536 := by omega
  have h255 : n &&& 255 = n % 256 := by
    have h := Nat.and_pow_two_sub_one_eq_mod n 8
    norm_num at h
    exact h
  have hsh : n >>> 8 = n / 256 := by
    simp [Nat.shiftRight_eq_div_pow]
  have h2' : (n >>> 8) &&& 255 = n / 256 := by
    rw [hsh]
    have h := Nat.and_pow_two_sub_one_eq_mod (n / 256) 8
    norm_num at h
    rw [h]
    omega
  rw [h255, h2', lo_or_hi_shift _ _ (by omega)]
  have hrec : n % 256 + 256 * (n / 256) = n := by omega
  rw [hrec]
  unfold toInt16
  omega

/-- C6: decode after encode is the identity on snapshots whose numeric
fields are inside the representable domain. -/
theorem decode_encode_roundtrip (s : rc_state)
    (h1 : -0x400 ≤ s.stick_right.horizontal) (h2 : s.stick_right.horizontal ≤ 0x3FF)
    (h3 : -0x400 ≤ s.stick_right.vertical) (h4 : s.stick_right.vertical ≤ 0x3FF)
    (h5 : -0x400 ≤ s.stick_left.vertical) (h6 : s.stick_left.vertical ≤ 0x3FF)
    (h7 : -0x400 ≤ s.stick_left.horizontal) (h8 : s.stick_left.horizontal ≤ 0x3FF)
    (h9 : -0x400 ≤ s.left_wheel) (h10 : s.left_wheel ≤ 0x3FF)
    (h11 : -0x400 ≤ s.right_wheel) (h12 : s.right_wheel ≤ 0x3FF)
    (h13 : -31 ≤ s.right_wheel_delta) (h14 : s.right_wheel_delta ≤ 31) :
    rcm_parse_payload (some (build_payload s)) true = some s := by
  obtain ⟨pa, go, sh, re, c1, c2, c3, ⟨du, dd, dl, dr, dc⟩, fm, ⟨rh, rv⟩, ⟨lh, lv⟩, lw, rw_, dlt⟩ := s
  simp only at h1 h2 h3 h4 h5 h6 h7 h8 h9 h10 h11 h12 h13 h14
  have hb : build_payload ⟨pa, go, sh, re, c1, c2, c3, ⟨du, dd, dl, dr, dc⟩, fm, ⟨rh, rv⟩, ⟨lh, lv⟩, lw, rw_, dlt⟩ =
      [((if pa then 1 else 0) <<< 4) ||| ((if go then 1 else 0) <<< 5) ||| ((if sh then 1 else 0) <<< 6),
       ((if re then 1 else 0) <<< 0) ||| ((if dr then 1 else 0) <<< 3) ||| ((if du then 1 else 0) <<< 4) |||
         ((if dd then 1 else 0) <<< 5) ||| ((if dl then 1 else 0) <<< 6) ||| ((if dc then 1 else 0) <<< 7),
       (fm.toNat &&& 0x03) ||| ((if c1 then 1 else 0) <<< 2) ||| ((if c2 then 1 else 0) <<< 3) |||
         ((if c3 then 1 else 0) <<< 4),
       0,
       (if clamp dlt (-31) 31 > 0 then (((clamp dlt (-31) 31).toNat <<< 1) ||| (1 <<< 6))
        else if clamp dlt (-31) 31 < 0 then ((-(clamp dlt (-31) 31)).toNat <<< 1) else 0),
       toUInt16wrap (rh + 0x400) &&& 0xFF, (toUInt16wrap (rh + 0x400) >>> 8) &&& 0xFF,
       toUInt16wrap (rv + 0x400) &&& 0xFF, (toUInt16wrap (rv + 0x400) >>> 8) &&& 0xFF,
       toUInt16wrap (lv + 0x400) &&& 0xFF, (toUInt16wrap (lv + 0x400) >>> 8) &&& 0xFF,
       toUInt16wrap (lh + 0x400) &&& 0xFF, (toUInt16wrap (lh + 0x400) >>> 8) &&& 0xFF,
       toUInt16wrap (lw + 0x400) &&& 0xFF, (toUInt16wrap (lw + 0x400) >>> 8) &&& 0xFF,
       toUInt16wrap (rw_ + 0x400) &&& 0xFF, (toUInt16wrap (rw_ + 0x400) >>> 8) &&& 0xFF] := rfl
  rw [hb, rcm_parse_payload, if_neg (by simp), parse_payload_fields_explicit]
  refine congrArg some ?_
  have hcl : clamp dlt (-31) 31 = dlt := by
    unfold clamp
    rw [if_neg (by omega), if_neg (by omega)]
  rw [hcl]
  simp only [rc_state.mk.injEq, rc_five_d.mk.injEq, rc_stick.mk.injEq]
  refine ⟨?_, ?_, ?_, ?_, ?_, ?_, ?_, ⟨?_, ?_, ?_, ?_, ?_⟩, ?_,
    ⟨axis_roundtrip rh (by omega) (by omega), axis_roundtrip rv (by omega) (by omega)⟩,
    ⟨axis_roundtrip lh (by omega) (by omega), axis_roundtrip lv (by omega) (by omega)⟩,
    axis_roundtrip lw (by omega) (by omega), axis_roundtrip rw_ (by omega) (by omega), ?_⟩
  · cases pa <;> cases go <;> cases sh <;> decide
  · cases pa <;> cases go <;> cases sh <;> decide
  · cases pa <;> cases go <;> cases sh <;> decide
  · cases re <;> cases dr <;> cases du <;> cases dd <;> cases dl <;> cases dc <;> decide
  · cases fm <;> cases c1 <;> cases c2 <;> cases c3 <;> decide
  · cases fm <;> cases c1 <;> cases c2 <;> cases c3 <;> decide
  · cases fm <;> cases c1 <;> cases c2 <;> cases c3 <;> decide
  · cases re <;> cases dr <;> cases du <;> cases dd <;> cases dl <;> cases dc <;> decide
  · cases re <;> cases dr <;> cases du <;> cases dd <;> cases dl <;> cases dc <;> decide
  · cases re <;> cases dr <;> cases du <;> cases dd <;> cases dl <;> cases dc <;> decide
  · cases re <;> cases dr <;> cases du <;> cases dd <;> cases dl <;> cases dc <;> decide
  · cases re <;> cases dr <;> cases du <;> cases dd <;> cases dl <;> cases dc <;> decide
  · cases fm <;> cases c1 <;> cases c2 <;> cases c3 <;> decide
  · -- right_wheel_delta round trip
    rcases lt_trichotomy dlt 0 with hd | hd | hd
    · have hm : (-dlt).toNat ≤ 31 := by omega
      have hb4 : (if dlt > 0 then ((dlt.toNat <<< 1) ||| (1 <<< 6))
          else if dlt < 0 then ((-dlt).toNat <<< 1) else 0) = (-dlt).toNat <<< 1 := by
        rw [if_neg (by omega), if_pos hd]
      rw [hb4]
      have hsft : ((-dlt).toNat <<< 1 >>> 6) &&& 1 = 0 := by
        rw [Nat.shiftLeft_eq, Nat.shiftRight_eq_div_pow, Nat.and_one_is_mod]
        norm_num
        omega
      rw [if_neg (by rw [hsft]; omega)]
      have hmg : ((-dlt).toNat <<< 1 >>> 1) &&& 0x1F = (-dlt).toNat := by
        rw [Nat.shiftLeft_eq, Nat.shiftRight_eq_div_pow]
        have h := Nat.and_pow_two_sub_one_eq_mod ((-dlt).toNat * 2 / 2 ^ 1) 5
        norm_num at h ⊢
        omega
      rw [hmg]
      unfold toInt8
      omega
    · have hb4 : (if dlt > 0 then ((dlt.toNat <<< 1) ||| (1 <<< 6))
          else if dlt < 0 then ((-dlt).toNat <<< 1) else 0) = 0 := by
        rw [if_neg (by omega), if_neg (by omega)]
      rw [hb4, hd]
      decide
    · have hm : dlt.toNat ≤ 31 := by omega
      have h64 : dlt.toNat <<< 1 ||| 1 <<< 6 = 64 + dlt.toNat * 2 := by
        have h := Nat.mul_add_lt_is_or (i := 6) (b := dlt.toNat * 2) (by norm_num; omega) 1
        rw [Nat.shiftLeft_eq, Nat.shiftLeft_eq, Nat.or_comm]
        norm_num at h ⊢
        exact h.symm
      have hb4 : (if dlt > 0 then ((dlt.toNat <<< 1) ||| (1 <<< 6))
          else if dlt < 0 then ((-dlt).toNat <<< 1) else 0) = 64 + dlt.toNat * 2 := by
        rw [if_pos hd, h64]
      rw [hb4]
      have hsft : ((64 + dlt.toNat * 2) >>> 6) &&& 1 = 1 := by
        rw [Nat.shiftRight_eq_div_pow, Nat.and_one_is_mod]
        norm_num
        omega
      rw [if_pos (by rw [hsft]; omega)]
      have hmg : ((64 + dlt.toNat * 2) >>> 1) &&& 0x1F = dlt.toNat := by
        rw [Nat.shiftRight_eq_div_pow]
        have h := Nat.and_pow_two_sub_one_eq_mod ((64 + dlt.toNat * 2) / 2 ^ 1) 5
        norm_num at h ⊢
        omega
      rw [hmg]
      unfold toInt8
      omega








theorem rcm_feed_append (p : RcmParser) (xs ys : List Nat) :
    rcm_feed p (xs ++ ys) =
      ((rcm_feed (rcm_feed p xs).1 ys).1,
       (rcm_feed p xs).2.1 + (rcm_feed (rcm_feed p xs).1 ys).2.1,
       (rcm_feed p xs).2.2 ++ (rcm_feed (rcm_feed p xs).1 ys).2.2) := by
  induction xs generalizing p with
  | nil => simp [rcm_feed]
  | cons b rest ih =>
    simp only [List.cons_append, rcm_feed, List.append_eq]
    rw [ih]
    simp [Nat.add_assoc, List.append_assoc]


/-- C2: feeding any partition of a byte stream chunk by chunk to a fresh
parser produces the same final parser, the same total decoded count and
the same callback sequence as feeding the whole stream in one call. -/
theorem feed_partition_eq_single (chunks : List (List Nat)) :
    feed_chunks rcm_create chunks = rcm_feed rcm_create chunks.flatten := by
  suffices h : ∀ p, feed_chunks p chunks = rcm_feed p chunks.flatten from h rcm_create
  induction chunks with
  | nil => intro p; simp [feed_chunks, rcm_feed, List.flatten]
  | cons c rest ih =>
    intro p
    simp only [feed_chunks, List.flatten_cons]
    rw [rcm_feed_append, ih]






/-! ### Single-step characterizations of `try_decode_frame` -/

theorem try_decode_empty (p : RcmParser) (h : p.ring = []) :
    try_decode_frame p = (p, -1, none) := by
  rw [try_decode_frame]
  rw [dif_pos (by simp [h])]

theorem try_decode_scan_skip (p : RcmParser) (hs : p.pstate = .scanSof)
    (hne : p.ring ≠ []) (hh : p.ring.getD 0 0 ≠ DUML_SOF) :
    try_decode_frame p = try_decode_frame ⟨p.ring.drop 1, .scanSof, p.frame_len⟩ := by
  rw [try_decode_frame]
  rw [dif_neg (by simp [hne])]
  split
  · rw [if_pos hh]
  · simp_all

theorem try_decode_scan_short (p : RcmParser) (hs : p.pstate = .scanSof)
    (hne : p.ring ≠ []) (hh : p.ring.getD 0 0 = DUML_SOF)
    (hlen : p.ring.length < 4) :
    try_decode_frame p = (p, -1, none) := by
  rw [try_decode_frame]
  rw [dif_neg (by simp [hne])]
  split
  · rw [if_neg (not_not_intro hh), if_pos hlen]
  · simp_all

theorem try_decode_scan_crc8_fail (p : RcmParser) (hs : p.pstate = .scanSof)
    (hne : p.ring ≠ []) (hh : p.ring.getD 0 0 = DUML_SOF)
    (hlen : ¬ p.ring.length < 4)
    (hcrc : duml_crc8 (p.ring.take 3) ≠ p.ring.getD 3 0) :
    try_decode_frame p = try_decode_frame ⟨p.ring.drop 1, .scanSof, p.frame_len⟩ := by
  rw [try_decode_frame]
  rw [dif_neg (by simp [hne])]
  split
  · rw [if_neg (not_not_intro hh), if_neg hlen, if_pos hcrc]
  · simp_all

theorem try_decode_scan_badlen (p : RcmParser) (hs : p.pstate = .scanSof)
    (hne : p.ring ≠ []) (hh : p.ring.getD 0 0 = DUML_SOF)
    (hlen : ¬ p.ring.length < 4)
    (hcrc : ¬ duml_crc8 (p.ring.take 3) ≠ p.ring.getD 3 0)
    (hfl : ((p.ring.getD 1 0) ||| ((p.ring.getD 2 0) <<< 8)) &&& 0x03FF < DUML_MIN_FRAME_LEN ∨
      DUML_MAX_FRAME_LEN < ((p.ring.getD 1 0) ||| ((p.ring.getD 2 0) <<< 8)) &&& 0x03FF) :
    try_decode_frame p = try_decode_frame
      ⟨p.ring.drop 1, .scanSof, ((p.ring.getD 1 0) ||| ((p.ring.getD 2 0) <<< 8)) &&& 0x03FF⟩ := by
  rw [try_decode_frame]
  rw [dif_neg (by simp [hne])]
  split
  · rw [if_neg (not_not_intro hh), if_neg hlen, if_neg hcrc, dif_pos hfl]
  · simp_all

theorem try_decode_scan_goodlen (p : RcmParser) (hs : p.pstate = .scanSof)
    (hne : p.ring ≠ []) (hh : p.ring.getD 0 0 = DUML_SOF)
    (hlen : ¬ p.ring.length < 4)
    (hcrc : ¬ duml_crc8 (p.ring.take 3) ≠ p.ring.getD 3 0)
    (hfl : ¬ (((p.ring.getD 1 0) ||| ((p.ring.getD 2 0) <<< 8)) &&& 0x03FF < DUML_MIN_FRAME_LEN ∨
      DUML_MAX_FRAME_LEN < ((p.ring.getD 1 0) ||| ((p.ring.getD 2 0) <<< 8)) &&& 0x03FF)) :
    try_decode_frame p = try_decode_frame
      ⟨p.ring, .readFrame, ((p.ring.getD 1 0) ||| ((p.ring.getD 2 0) <<< 8)) &&& 0x03FF⟩ := by
  rw [try_decode_frame]
  rw [dif_neg (by simp [hne])]
  split
  · rw [if_neg (not_not_intro hh), if_neg hlen, if_neg hcrc, dif_neg hfl]
  · simp_all

theorem try_decode_read_need (p : RcmParser) (hs : p.pstate = .readFrame)
    (hne : p.ring ≠ []) (hlen : p.ring.length < p.frame_len) :
    try_decode_frame p = (p, -1, none) := by
  rw [try_decode_frame]
  rw [dif_neg (by simp [hne])]
  split
  · simp_all
  · rw [dif_pos hlen]

theorem try_decode_read_crc_fail (p : RcmParser) (hs : p.pstate = .readFrame)
    (hne : p.ring ≠ []) (hlen : ¬ p.ring.length < p.frame_len)
    (hcrc : duml_crc16 ((p.ring.take p.frame_len).take (p.frame_len - 2)) ≠
      ((p.ring.take p.frame_len).getD (p.frame_len - 2) 0) |||
        (((p.ring.take p.frame_len).getD (p.frame_len - 1) 0) <<< 8)) :
    try_decode_frame p = try_decode_frame ⟨p.ring.drop p.frame_len, .scanSof, p.frame_len⟩ := by
  rw [try_decode_frame]
  rw [dif_neg (by simp [hne])]
  split
  · simp_all
  · rw [dif_neg hlen, if_pos hcrc]

theorem try_decode_read_dispatch (p : RcmParser) (hs : p.pstate = .readFrame)
    (hne : p.ring ≠ []) (hlen : ¬ p.ring.length < p.frame_len)
    (hcrc : ¬ (duml_crc16 ((p.ring.take p.frame_len).take (p.frame_len - 2)) ≠
      ((p.ring.take p.frame_len).getD (p.frame_len - 2) 0) |||
        (((p.ring.take p.frame_len).getD (p.frame_len - 1) 0) <<< 8))) :
    try_decode_frame p =
      match frame_dispatch (p.ring.take p.frame_len) p.frame_len with
      | some st => (⟨p.ring.drop p.frame_len, .scanSof, p.frame_len⟩, 1, some st)
      | none => (⟨p.ring.drop p.frame_len, .scanSof, p.frame_len⟩, 0, none) := by
  rw [try_decode_frame]
  rw [dif_neg (by simp [hne])]
  split
  · simp_all
  · rw [dif_neg hlen, if_neg hcrc]
    try rfl


theorem ne_nil_of_length_ne_zero {r : List Nat} (h : ¬ r.length = 0) : r ≠ [] := by
  cases r <;> simp_all

theorem try_decode_frame_progress (p : RcmParser) :
    0 ≤ (try_decode_frame p).2.1 → (try_decode_frame p).1.ring.length < p.ring.length := by
  induction p using try_decode_frame.induct with
  | case1 x h0 =>
    rw [try_decode_empty x (List.length_eq_zero.mp h0)]
    simp
  | case2 x h0 hs hh ih =>
    rw [try_decode_scan_skip x hs (ne_nil_of_length_ne_zero h0) hh]
    intro h
    have h2 := ih h
    simp only [List.length_drop] at h2
    omega
  | case3 x h0 hs hh hl =>
    rw [try_decode_scan_short x hs (ne_nil_of_length_ne_zero h0) (not_ne_iff.mp hh) hl]
    simp
  | case4 x h0 hs hh hl hcrc ih =>
    rw [try_decode_scan_crc8_fail x hs (ne_nil_of_length_ne_zero h0) (not_ne_iff.mp hh) hl hcrc]
    intro h
    have h2 := ih h
    simp only [List.length_drop] at h2
    omega
  | case5 x h0 hs hh hl hcrc hfl ih =>
    rw [try_decode_scan_badlen x hs (ne_nil_of_length_ne_zero h0) (not_ne_iff.mp hh) hl hcrc hfl]
    intro h
    have h2 := ih h
    simp only [List.length_drop] at h2
    omega
  | case6 x h0 hs hh hl hcrc hfl ih =>
    rw [try_decode_scan_goodlen x hs (ne_nil_of_length_ne_zero h0) (not_ne_iff.mp hh) hl hcrc hfl]
    exact ih
  | case7 x h0 hs hl =>
    rw [try_decode_read_need x hs (ne_nil_of_length_ne_zero h0) hl]
    simp
  | case8 x h0 hs hl hcrc ih =>
    rw [try_decode_read_crc_fail x hs (ne_nil_of_length_ne_zero h0) hl hcrc]
    intro h
    have h2 := ih h
    simp only [List.length_drop] at h2
    omega
  | case9 x h0 hs hl hcrc st hd =>
    rw [try_decode_read_dispatch x hs (ne_nil_of_length_ne_zero h0) hl hcrc]
    by_cases hfl0 : x.frame_len = 0
    · exfalso
      rw [hfl0] at hcrc
      simp [duml_crc16] at hcrc
    · simp only [hd]
      intro _
      simp only [List.length_drop]
      omega
  | case10 x h0 hs hl hcrc hd =>
    rw [try_decode_read_dispatch x hs (ne_nil_of_length_ne_zero h0) hl hcrc]
    by_cases hfl0 : x.frame_len = 0
    · exfalso
      rw [hfl0] at hcrc
      simp [duml_crc16] at hcrc
    · simp only [hd]
      intro _
      simp only [List.length_drop]
      omega

theorem drain_neg (p : RcmParser) (h : (try_decode_frame p).2.1 < 0) :
    drain p = ((try_decode_frame p).1, 0, []) := by
  rw [drain]
  rw [dif_neg (by omega)]

theorem drain_nonneg (p : RcmParser) (h : 0 ≤ (try_decode_frame p).2.1) :
    drain p = ((drain (try_decode_frame p).1).1,
      (try_decode_frame p).2.1.toNat + (drain (try_decode_frame p).1).2.1,
      (try_decode_frame p).2.2.toList ++ (drain (try_decode_frame p).1).2.2) := by
  rw [drain]
  rw [dif_pos ⟨h, try_decode_frame_progress p h⟩]


theorem ring_push_small (r : List Nat) (b : Nat) (h : r.length < RING_SIZE) :
    ring_push r b = r ++ [b] := by
  rw [ring_push, if_pos h]

theorem rcm_feed_nil (p : RcmParser) : rcm_feed p [] = (p, 0, []) := rfl

theorem rcm_feed_cons (p : RcmParser) (b : Nat) (rest : List Nat) :
    rcm_feed p (b :: rest) =
      ((rcm_feed (drain ⟨ring_push p.ring b, p.pstate, p.frame_len⟩).1 rest).1,
       (drain ⟨ring_push p.ring b, p.pstate, p.frame_len⟩).2.1 +
         (rcm_feed (drain ⟨ring_push p.ring b, p.pstate, p.frame_len⟩).1 rest).2.1,
       (drain ⟨ring_push p.ring b, p.pstate, p.frame_len⟩).2.2 ++
         (rcm_feed (drain ⟨ring_push p.ring b, p.pstate, p.frame_len⟩).1 rest).2.2) := rfl

theorem rcm_feed_cons' (r : List Nat) (st : PState) (fl : Nat) (b : Nat) (rest : List Nat) :
    rcm_feed ⟨r, st, fl⟩ (b :: rest) =
      ((rcm_feed (drain ⟨ring_push r b, st, fl⟩).1 rest).1,
       (drain ⟨ring_push r b, st, fl⟩).2.1 +
         (rcm_feed (drain ⟨ring_push r b, st, fl⟩).1 rest).2.1,
       (drain ⟨ring_push r b, st, fl⟩).2.2 ++
         (rcm_feed (drain ⟨ring_push r b, st, fl⟩).1 rest).2.2) := rfl

/-- While a frame is being read and fewer bytes than the expected length
are buffered, feeding only accumulates. -/
theorem rcm_feed_reading_accum (bs : List Nat) (p : RcmParser)
    (hs : p.pstate = .readFrame)
    (hlt : p.ring.length + bs.length < p.frame_len) (hfl : p.frame_len ≤ 1400) :
    rcm_feed p bs = (⟨p.ring ++ bs, .readFrame, p.frame_len⟩, 0, []) := by
  induction bs generalizing p with
  | nil =>
    obtain ⟨r, st, fl⟩ := p
    simp only at hs
    subst hs
    simp [rcm_feed_nil]
  | cons b rest ih =>
    rw [rcm_feed_cons]
    rw [ring_push_small _ _ (by simp only [RING_SIZE]; simp at hlt; omega)]
    have hstep : try_decode_frame ⟨p.ring ++ [b], p.pstate, p.frame_len⟩ =
        (⟨p.ring ++ [b], p.pstate, p.frame_len⟩, -1, none) := by
      rw [hs]
      refine try_decode_read_need _ rfl (by simp) ?_
      simp only [List.length_append, List.length_cons] at hlt ⊢
      simp
      omega
    rw [drain_neg _ (by rw [hstep]; norm_num), hstep]
    rw [ih ⟨p.ring ++ [b], p.pstate, p.frame_len⟩ hs
      (by simp at hlt ⊢; omega) hfl]
    simp


/-- Feeding the four header bytes of a frame whose start byte, header
checksum and length field are valid moves a fresh parser into
`READ_FRAME` with the decoded expected length. -/
theorem rcm_feed_header4 (F : List Nat) (L : Nat)
    (hL : F.length = L) (hmin : 13 ≤ L)
    (hsof : F.getD 0 0 = DUML_SOF)
    (hlenfield : ((F.getD 1 0) ||| ((F.getD 2 0) <<< 8)) &&& 0x03FF = L)
    (hcrc8 : duml_crc8 (F.take 3) = F.getD 3 0) :
    rcm_feed rcm_create (F.take 4) = (⟨F.take 4, .readFrame, L⟩, 0, []) := by
  rcases F with _ | ⟨f0, F1⟩
  · simp at hL; omega
  rcases F1 with _ | ⟨f1, F2⟩
  · simp at hL; omega
  rcases F2 with _ | ⟨f2, F3⟩
  · simp at hL; omega
  rcases F3 with _ | ⟨f3, rest⟩
  · simp at hL; omega
  simp only [List.getD_eq_getElem?_getD, List.getElem?_cons_zero, List.getElem?_cons_succ,
    Option.getD_some] at hsof hlenfield hcrc8
  have htake4 : (f0 :: f1 :: f2 :: f3 :: rest).take 4 = [f0, f1, f2, f3] := rfl
  rw [htake4]
  rw [show rcm_create = (⟨[], .scanSof, 0⟩ : RcmParser) from rfl]
  -- byte 1
  rw [rcm_feed_cons']
  rw [show ring_push [] f0 = [f0] from rfl]
  have e1 : try_decode_frame ⟨[f0], .scanSof, 0⟩ =
      (⟨[f0], .scanSof, 0⟩, -1, none) := by
    refine try_decode_scan_short _ rfl (by simp) ?_ (by simp)
    simpa using hsof
  rw [drain_neg _ (by rw [e1]; norm_num), e1]
  -- byte 2
  rw [rcm_feed_cons']
  rw [show ring_push [f0] f1 = [f0, f1] from rfl]
  have e2 : try_decode_frame ⟨[f0, f1], .scanSof, 0⟩ =
      (⟨[f0, f1], .scanSof, 0⟩, -1, none) := by
    refine try_decode_scan_short _ rfl (by simp) ?_ (by simp)
    simpa using hsof
  rw [drain_neg _ (by rw [e2]; norm_num), e2]
  -- byte 3
  rw [rcm_feed_cons']
  rw [show ring_push [f0, f1] f2 = [f0, f1, f2] from rfl]
  have e3 : try_decode_frame ⟨[f0, f1, f2], .scanSof, 0⟩ =
      (⟨[f0, f1, f2], .scanSof, 0⟩, -1, none) := by
    refine try_decode_scan_short _ rfl (by simp) ?_ (by simp)
    simpa using hsof
  rw [drain_neg _ (by rw [e3]; norm_num), e3]
  -- byte 4: header complete, transition to READ_FRAME
  rw [rcm_feed_cons']
  rw [show ring_push [f0, f1, f2] f3 = [f0, f1, f2, f3] from rfl]
  have hLle : L ≤ 1023 := by
    rw [← hlenfield]
    exact Nat.and_le_right
  have e4 : try_decode_frame ⟨[f0, f1, f2, f3], .scanSof, 0⟩ =
      try_decode_frame ⟨[f0, f1, f2, f3], .readFrame, L⟩ := by
    have h := try_decode_scan_goodlen ⟨[f0, f1, f2, f3], .scanSof, 0⟩
      rfl (by simp) (by simpa using hsof) (by simp)
      (by simpa using (not_ne_iff.mpr hcrc8))
      (by
        simp only [DUML_MIN_FRAME_LEN, DUML_MAX_FRAME_LEN]
        simp [hlenfield]
        omega)
    simpa [hlenfield] using h
  have e5 : try_decode_frame ⟨[f0, f1, f2, f3], .readFrame, L⟩ =
      (⟨[f0, f1, f2, f3], .readFrame, L⟩, -1, none) := by
    refine try_decode_read_need _ rfl (by simp) ?_
    simp
    omega
  rw [drain_neg _ (by rw [e4, e5]; norm_num), e4, e5]
  simp [rcm_feed_nil]


/-- Feeding one complete frame with a valid header (start byte, header
checksum, length field) to a fresh parser: the whole frame is consumed;
the callback fires exactly when the body checksum matches and the
dispatch finds a controller push. -/
theorem rcm_feed_full_frame (F : List Nat) (L : Nat)
    (hL : F.length = L) (hmin : 13 ≤ L)
    (hsof : F.getD 0 0 = DUML_SOF)
    (hlenfield : ((F.getD 1 0) ||| ((F.getD 2 0) <<< 8)) &&& 0x03FF = L)
    (hcrc8 : duml_crc8 (F.take 3) = F.getD 3 0) :
    rcm_feed rcm_create F =
      if duml_crc16 (F.take (L - 2)) = (F.getD (L - 2) 0) ||| ((F.getD (L - 1) 0) <<< 8) then
        match frame_dispatch F L with
        | some st => (⟨[], .scanSof, L⟩, 1, [st])
        | none => (⟨[], .scanSof, L⟩, 0, [])
      else (⟨[], .scanSof, L⟩, 0, []) := by
  have hLle : L ≤ 1023 := by
    rw [← hlenfield]
    exact Nat.and_le_right
  have htakeL : F.take L = F := by rw [← hL, List.take_length]
  have hlast : F[L-1]? = some (F.getD (L-1) 0) := by
    have hb : L - 1 < F.length := by omega
    simp [List.getD_eq_getElem?_getD, List.getElem?_eq_getElem hb]
  have hsplitL : F = F.take (L - 1) ++ [F.getD (L - 1) 0] := by
    conv_lhs => rw [← htakeL]
    rw [show L = (L - 1) + 1 by omega, List.take_succ]
    rw [show L - 1 + 1 - 1 = L - 1 by omega, hlast]
    rfl
  have hsplit4 : F.take (L - 1) = F.take 4 ++ (F.drop 4).take (L - 5) := by
    rw [show L - 1 = 4 + (L - 5) by omega, List.take_add]
  -- feed all but the last byte
  have hstage1 : rcm_feed rcm_create (F.take (L - 1)) =
      (⟨F.take (L - 1), .readFrame, L⟩, 0, []) := by
    rw [hsplit4, rcm_feed_append, rcm_feed_header4 F L hL hmin hsof hlenfield hcrc8]
    rw [rcm_feed_reading_accum ((F.drop 4).take (L - 5)) ⟨F.take 4, .readFrame, L⟩ rfl
      (by
        simp only [List.length_take, List.length_drop, hL]
        omega)
      (by show L ≤ 1400; omega)]
    simp
  -- feed the last byte
  conv_lhs => rw [hsplitL, rcm_feed_append, hstage1]
  simp only [rcm_feed_cons']
  rw [ring_push_small _ _ (by simp only [RING_SIZE, List.length_take, hL]; omega)]
  rw [← hsplitL]
  have hne : F ≠ [] := by
    intro hc
    rw [hc] at hL
    simp at hL
    omega
  have hnl : ¬ F.length < L := by omega
  by_cases hc : duml_crc16 (F.take (L - 2)) = (F.getD (L - 2) 0) ||| ((F.getD (L - 1) 0) <<< 8)
  · rw [if_pos hc]
    have hdisp := try_decode_read_dispatch ⟨F, .readFrame, L⟩ rfl (by simpa using hne)
      (by simpa using hnl)
      (by simpa [htakeL] using (not_ne_iff.mpr hc))
    simp only [htakeL] at hdisp
    rcases hdd : frame_dispatch F L with _ | st
    · rw [hdd] at hdisp
      rw [drain_nonneg _ (by rw [hdisp]; try norm_num), hdisp]
      have hemp : try_decode_frame ⟨F.drop L, .scanSof, L⟩ =
          (⟨F.drop L, .scanSof, L⟩, -1, none) := by
        refine try_decode_empty _ ?_
        rw [← hL, List.drop_length]
      rw [drain_neg _ (by rw [hemp]; try norm_num), hemp]
      simp only [rcm_feed_nil]
      rw [← hL, List.drop_length]
      rfl
    · rw [hdd] at hdisp
      rw [drain_nonneg _ (by rw [hdisp]; try norm_num), hdisp]
      have hemp : try_decode_frame ⟨F.drop L, .scanSof, L⟩ =
          (⟨F.drop L, .scanSof, L⟩, -1, none) := by
        refine try_decode_empty _ ?_
        rw [← hL, List.drop_length]
      rw [drain_neg _ (by rw [hemp]; try norm_num), hemp]
      simp only [rcm_feed_nil]
      rw [← hL, List.drop_length]
      rfl
  · rw [if_neg hc]
    have hfail := try_decode_read_crc_fail ⟨F, .readFrame, L⟩ rfl (by simpa using hne)
      (by simpa using hnl)
      (by simpa [htakeL] using hc)
    have hemp : try_decode_frame ⟨F.drop L, .scanSof, L⟩ =
        (⟨F.drop L, .scanSof, L⟩, -1, none) := by
      refine try_decode_empty _ ?_
      rw [← hL, List.drop_length]
    rw [drain_neg _ (by rw [hfail, hemp]; try norm_num), hfail, hemp]
    simp only [rcm_feed_nil]
    rw [← hL, List.drop_length]
    rfl




theorem scan_rc_offset_eq_find (frame : List Nat) (fl : Nat) :
    ∀ m off, off = 13 - m → 8 ≤ off → off ≤ 13 →
    scan_rc_offset frame fl off = (List.range' off (13 - off)).find? (scan_pred frame fl) := by
  intro m
  induction m with
  | zero =>
    intro off h13 h8 hle
    have : off = 13 := by omega
    subst this
    rw [scan_rc_offset]
    rw [dif_neg (by omega)]
    simp
  | succ n ih =>
    intro off h13 h8 hle
    by_cases hoff13 : off = 13
    · subst hoff13
      rw [scan_rc_offset, dif_neg (by omega)]
      simp
    · have hofflt : off ≤ 12 := by omega
      rw [scan_rc_offset]
      rw [show 13 - off = (12 - off) + 1 by omega, List.range'_succ, List.find?_cons]
      by_cases hcond : off + 2 + 17 ≤ fl - 2
      · rw [dif_pos ⟨hofflt, hcond⟩]
        by_cases hpair : frame.getD off 0 = DUML_CMD_SET_RC ∧ frame.getD (off+1) 0 = DUML_CMD_RC_PUSH
        · rw [if_pos hpair]
          have hp : scan_pred frame fl off = true := by
            rw [scan_pred, hpair.1, hpair.2, decide_eq_true hcond]
            rfl
          rw [hp]
        · rw [if_neg hpair]
          have hp : scan_pred frame fl off = false := by
            rw [scan_pred]
            rcases not_and_or.mp hpair with h | h
            · rw [beq_eq_false_iff_ne.mpr (show frame.getD off 0 ≠ 0x06 from h)]
              simp
            · rw [beq_eq_false_iff_ne.mpr (show frame.getD (off+1) 0 ≠ 0x05 from h)]
              simp
          rw [hp]
          show scan_rc_offset frame fl (off + 1) =
            List.find? (scan_pred frame fl) (List.range' (off + 1) (12 - off))
          rw [ih (off + 1) (by omega) (by omega) (by omega)]
          rw [show 13 - (off + 1) = 12 - off from by omega]
      · rw [dif_neg (fun hc => hcond hc.2)]
        have hp : scan_pred frame fl off = false := by
          rw [scan_pred, decide_eq_false hcond]
          simp
        rw [hp]
        show (none : Option Nat) =
          List.find? (scan_pred frame fl) (List.range' (off + 1) (12 - off))
        have hall : ∀ x ∈ List.range' (off + 1) (12 - off), ¬ scan_pred frame fl x = true := by
          intro x hx
          rw [List.mem_range'] at hx
          obtain ⟨i, hi, rfl⟩ := hx
          simp only [scan_pred, Bool.and_eq_true, decide_eq_true_eq, beq_iff_eq]
          rintro ⟨⟨hle2, _⟩, _⟩
          omega
        exact ((List.find?_eq_none).mpr hall).symm

theorem dispatch_reference_eq (frame : List Nat) (L : Nat)
    (hLf : frame.length = L) (hmin : 13 ≤ L) :
    dispatch_reference frame L =
      match frame_dispatch frame L with
      | some st => (1, some st)
      | none => (0, none) := by
  rw [dispatch_reference, frame_dispatch]
  by_cases hA : frame.getD 9 0 = 0x06 ∧ frame.getD 10 0 = 0x05 ∧ 17 ≤ L - 13
  · rw [if_pos hA]
    rw [if_pos (by
      refine ⟨by simpa [DUML_MIN_FRAME_LEN] using hmin, ?_, ?_, ?_⟩
      · simpa [DUML_CMD_SET_RC] using hA.1
      · simpa [DUML_CMD_RC_PUSH] using hA.2.1
      · simpa [RC_PUSH_PAYLOAD_LEN] using hA.2.2)]
    rw [rcm_parse_payload]
    rw [if_neg (by
      simp only [List.length_take, List.length_drop, hLf]
      simp
      omega)]
  · rw [if_neg hA]
    rw [if_neg (by
      intro hc
      exact hA ⟨by simpa [DUML_CMD_SET_RC] using hc.2.1,
        by simpa [DUML_CMD_RC_PUSH] using hc.2.2.1,
        by simpa [RC_PUSH_PAYLOAD_LEN] using hc.2.2.2⟩)]
    by_cases h14 : 14 ≤ L
    · rw [if_pos h14]
      rw [scan_rc_offset_eq_find frame L 5 8 (by omega) (by omega) (by omega)]
      simp only [show (13:Nat) - 8 = 5 from rfl]
      rcases hfd : (List.range' 8 5).find? (scan_pred frame L) with _ | k
      · simp only [hfd]
      · simp only [hfd]
        have hk8 : 8 ≤ k ∧ k < 13 := by
          have hm := List.mem_of_find?_eq_some hfd
          rw [List.mem_range'] at hm
          obtain ⟨i, hi, rfl⟩ := hm
          omega
        have hp := List.find?_some hfd
        simp only [scan_pred, Bool.and_eq_true, decide_eq_true_eq, beq_iff_eq] at hp
        rw [rcm_parse_payload]
        rw [if_neg (by
          simp only [List.length_take, List.length_drop, hLf]
          simp
          omega)]
    · rw [if_neg h14]
      have hL13 : L = 13 := by omega
      have hall : ∀ x ∈ List.range' 8 5, ¬ scan_pred frame L x = true := by
        intro x hx
        rw [List.mem_range'] at hx
        obtain ⟨i, hi, rfl⟩ := hx
        simp only [scan_pred, Bool.and_eq_true, decide_eq_true_eq, beq_iff_eq]
        rintro ⟨⟨hle2, _⟩, _⟩
        omega
      rw [(List.find?_eq_none).mpr hall]

/-- C3: a frame that has passed both checksum gates is dispatched exactly
as the spec describes (canonical offsets 9/10 first, then the first
matching fallback offset among 8..12, scanned in increasing order), the
frame is consumed from the stream, and the callback fires exactly once
when a decode happens and never otherwise. -/
theorem try_decode_frame_dispatch (F rest : List Nat) (L : Nat)
    (hL : F.length = L) (hmin : 13 ≤ L)
    (hcrc : duml_crc16 (F.take (L - 2)) = (F.getD (L - 2) 0) ||| ((F.getD (L - 1) 0) <<< 8)) :
    try_decode_frame ⟨F ++ rest, .readFrame, L⟩ =
      (⟨rest, .scanSof, L⟩, (dispatch_reference F L).1, (dispatch_reference F L).2) := by
  have htake : (F ++ rest).take L = F := List.take_left' hL
  have hdrop : (F ++ rest).drop L = rest := List.drop_left' hL
  have hne : F ++ rest ≠ [] := by
    intro hc
    have h0 : (F ++ rest).length = 0 := by rw [hc]; rfl
    rw [List.length_append] at h0
    omega
  have hnl : ¬ (F ++ rest).length < L := by
    simp only [List.length_append]
    omega
  have hdisp := try_decode_read_dispatch ⟨F ++ rest, .readFrame, L⟩ rfl
    (by simpa using hne) (by simpa using hnl)
    (by simpa [htake] using (not_ne_iff.mpr hcrc))
  simp only [htake, hdrop] at hdisp
  rw [hdisp, dispatch_reference_eq F L hL hmin]
  rcases hfd : frame_dispatch F L with _ | st <;> simp [hfd]

theorem try_decode_preserves_inv (p : RcmParser) (h : ParserInv p) :
    ParserInv (try_decode_frame p).1 := by
  induction p using try_decode_frame.induct with
  | case1 x h0 =>
    rw [try_decode_empty x (List.length_eq_zero.mp h0)]
    exact h
  | case2 x h0 hs hh ih =>
    rw [try_decode_scan_skip x hs (ne_nil_of_length_ne_zero h0) hh]
    refine ih ⟨?_, by simp⟩
    simp only [List.length_drop]
    exact le_trans (Nat.sub_le _ _) h.1
  | case3 x h0 hs hh hl =>
    rw [try_decode_scan_short x hs (ne_nil_of_length_ne_zero h0) (not_ne_iff.mp hh) hl]
    exact h
  | case4 x h0 hs hh hl hcrc ih =>
    rw [try_decode_scan_crc8_fail x hs (ne_nil_of_length_ne_zero h0) (not_ne_iff.mp hh) hl hcrc]
    refine ih ⟨?_, by simp⟩
    simp only [List.length_drop]
    exact le_trans (Nat.sub_le _ _) h.1
  | case5 x h0 hs hh hl hcrc hfl ih =>
    rw [try_decode_scan_badlen x hs (ne_nil_of_length_ne_zero h0) (not_ne_iff.mp hh) hl hcrc hfl]
    refine ih ⟨?_, by simp⟩
    simp only [List.length_drop]
    exact le_trans (Nat.sub_le _ _) h.1
  | case6 x h0 hs hh hl hcrc hfl ih =>
    rw [try_decode_scan_goodlen x hs (ne_nil_of_length_ne_zero h0) (not_ne_iff.mp hh) hl hcrc hfl]
    refine ih ⟨h.1, fun _ => ?_⟩
    push_neg at hfl
    exact ⟨hfl.1, hfl.2⟩
  | case7 x h0 hs hl =>
    rw [try_decode_read_need x hs (ne_nil_of_length_ne_zero h0) hl]
    exact h
  | case8 x h0 hs hl hcrc ih =>
    rw [try_decode_read_crc_fail x hs (ne_nil_of_length_ne_zero h0) hl hcrc]
    refine ih ⟨?_, by simp⟩
    simp only [List.length_drop]
    exact le_trans (Nat.sub_le _ _) h.1
  | case9 x h0 hs hl hcrc st hd =>
    rw [try_decode_read_dispatch x hs (ne_nil_of_length_ne_zero h0) hl hcrc]
    simp only [hd]
    refine ⟨?_, by simp⟩
    simp only [List.length_drop]
    exact le_trans (Nat.sub_le _ _) h.1
  | case10 x h0 hs hl hcrc hd =>
    rw [try_decode_read_dispatch x hs (ne_nil_of_length_ne_zero h0) hl hcrc]
    simp only [hd]
    refine ⟨?_, by simp⟩
    simp only [List.length_drop]
    exact le_trans (Nat.sub_le _ _) h.1

theorem drain_preserves_inv (p : RcmParser) (h : ParserInv p) :
    ParserInv (drain p).1 := by
  induction p using drain.induct with
  | case1 x res hguard ih =>
    rw [drain, dif_pos hguard]
    exact ih (try_decode_preserves_inv x h)
  | case2 x res hguard =>
    rw [drain, dif_neg hguard]
    exact try_decode_preserves_inv x h

theorem ring_push_preserves_bound (r : List Nat) (b : Nat) (h : r.length ≤ RING_SIZE) :
    (ring_push r b).length ≤ RING_SIZE := by
  rw [ring_push]
  split
  next hlt =>
    simp only [RING_SIZE] at hlt h ⊢
    simp only [List.length_append, List.length_cons, List.length_nil]
    omega
  next hge =>
    simp only [RING_SIZE] at h ⊢
    simp only [List.length_append, List.length_drop, List.length_cons, List.length_nil]
    omega

theorem rcm_feed_preserves_inv (data : List Nat) (p : RcmParser) (h : ParserInv p) :
    ParserInv (rcm_feed p data).1 := by
  induction data generalizing p with
  | nil => exact h
  | cons b rest ih =>
    rw [rcm_feed_cons]
    refine ih _ (drain_preserves_inv _ ⟨?_, h.2⟩)
    exact ring_push_preserves_bound _ _ h.1

/-- C10: every parser state reachable from `rcm_create` through `rcm_feed`
and `rcm_reset` keeps the ring occupancy at most 4096, and while a frame
is being read the recorded expected length lies in [13, 1400] --- so the
copy of the expected-length prefix always fits the 1400-byte scratch
buffer of `try_decode_frame`. -/
theorem reachable_parser_inv (p : RcmParser) (h : Reachable p) :
    p.ring.length ≤ 4096 ∧
    (p.pstate = .readFrame → 13 ≤ p.frame_len ∧ p.frame_len ≤ 1400 ∧
      (p.ring.take p.frame_len).length ≤ 1400) := by
  have hinv : ParserInv p := by
    induction h with
    | create => exact ⟨by simp [rcm_create, RING_SIZE], by simp [rcm_create]⟩
    | feed q data hq ih => exact rcm_feed_preserves_inv data q ih
    | reset q hq ih => exact ⟨by simp [rcm_reset, RING_SIZE], by simp [rcm_reset]⟩
  obtain ⟨h1, h2⟩ := hinv
  refine ⟨by simpa [RING_SIZE] using h1, fun hrf => ?_⟩
  obtain ⟨ha, hb⟩ := h2 hrf
  refine ⟨by simpa [DUML_MIN_FRAME_LEN] using ha, by simpa [DUML_MAX_FRAME_LEN] using hb, ?_⟩
  simp only [List.length_take]
  have : p.frame_len ≤ 1400 := by simpa [DUML_MAX_FRAME_LEN] using hb
  omega

theorem reachable_parser_inv_witness :
    rcm_create.ring.length ≤ 4096 ∧
    (rcm_create.pstate = .readFrame → 13 ≤ rcm_create.frame_len ∧ rcm_create.frame_len ≤ 1400 ∧
      (rcm_create.ring.take rcm_create.frame_len).length ≤ 1400) :=
  reachable_parser_inv rcm_create Reachable.create

theorem u16_bytes_recombine (n : Nat) (h : n < 65536) :
    (n &&& 0xFF) + 256 * ((n >>> 8) &&& 0xFF) = n := by
  have h255 : n &&& 255 = n % 256 := by
    have hx := Nat.and_pow_two_sub_one_eq_mod n 8
    norm_num at hx
    exact hx
  have hsh : n >>> 8 = n / 256 := by
    simp [Nat.shiftRight_eq_div_pow]
  have h2 : (n >>> 8) &&& 255 = n / 256 := by
    rw [hsh]
    have hx := Nat.and_pow_two_sub_one_eq_mod (n / 256) 8
    norm_num at hx
    rw [hx]
    omega
  rw [h255, h2]
  omega

theorem crc16_table_length : crc16_table.length = 256 := by decide

theorem crc16_table_lt : ∀ x ∈ crc16_table, x < 65536 := by decide

theorem crc16_step_lt (c b : Nat) (hc : c < 65536) : crc16_step c b < 65536 := by
  unfold crc16_step
  have h1 : crc16_table.getD ((c ^^^ b) &&& 0xFF) 0 < 65536 := by
    have hidx : (c ^^^ b) &&& 0xFF < crc16_table.length := by
      rw [crc16_table_length]
      have := Nat.and_le_right (n := c ^^^ b) (m := 0xFF)
      omega
    rw [List.getD_eq_getElem?_getD, List.getElem?_eq_getElem hidx]
    exact crc16_table_lt _ (List.getElem_mem hidx)
  have h2 : c >>> 8 < 65536 := by
    rw [Nat.shiftRight_eq_div_pow]
    omega
  have h3 : crc16_table.getD ((c ^^^ b) &&& 0xFF) 0 ^^^ c >>> 8 < 2 ^ 16 :=
    Nat.xor_lt_two_pow (by rw [show (2:Nat) ^ 16 = 65536 from by norm_num]; exact h1)
      (by rw [show (2:Nat) ^ 16 = 65536 from by norm_num]; exact h2)
  exact lt_of_lt_of_le h3 (by norm_num)

theorem foldl_crc16_lt (l : List Nat) : ∀ c, c < 65536 → l.foldl crc16_step c < 65536 := by
  induction l with
  | nil => intro c hc; simpa using hc
  | cons b rest ih =>
    intro c hc
    simp only [List.foldl_cons]
    exact ih _ (crc16_step_lt c b hc)

theorem duml_crc16_lt (data : List Nat) : duml_crc16 data < 65536 :=
  foldl_crc16_lt data 0x3692 (by norm_num)

theorem or_1024_eq (L : Nat) (hL : L < 2048) : L ||| 1024 = 1024 + L % 1024 := by
  rcases Nat.lt_or_ge L 1024 with h | h
  · have h10 : L < 2 ^ 10 := by norm_num; exact h
    have key := Nat.mul_add_lt_is_or h10 1
    norm_num at key
    rw [Nat.mod_eq_of_lt h, Nat.or_comm]
    exact key.symm
  · have hr : L % 1024 < 2 ^ 10 := by
      norm_num
      exact Nat.mod_lt _ (by norm_num)
    have key := Nat.mul_add_lt_is_or hr 1
    norm_num at key
    have hL2 : L = 1024 + L % 1024 := by omega
    calc L ||| 1024 = (1024 ||| L % 1024) ||| 1024 := by rw [← key, ← hL2]
      _ = 1024 ||| (L % 1024 ||| 1024) := Nat.or_assoc 1024 (L % 1024) 1024
      _ = 1024 ||| (1024 ||| L % 1024) := by rw [Nat.or_comm (L % 1024) 1024]
      _ = (1024 ||| 1024) ||| L % 1024 := (Nat.or_assoc 1024 1024 (L % 1024)).symm
      _ = 1024 ||| L % 1024 := by rw [Nat.or_self]
      _ = 1024 + L % 1024 := key.symm

/-- C9: `rcm_build_packet` (modelled from spec section 4.3) fails with
`BufferTooSmall` when the capacity is below `L = 11 + payload_len + 2`,
with `TooLarge` when `L > 1400`, with `InvalidArgs` when the output span
is absent or the payload is absent while its length is positive, and
otherwise returns a well-formed frame of length `L`: start byte `0x55`,
length-and-version word with version 1, valid header checksum, the
routing, sequence, flags and command fields, the payload copy, and a
valid little-endian body checksum over bytes `0..L-3`. -/
theorem rcm_build_packet_spec (outCap : Nat) (outPresent : Bool)
    (sender_type sender_index receiver_type receiver_index : Nat)
    (seq_num pack_type ack_type encrypt_type cmd_set cmd_id : Nat)
    (payload : Option (List Nat)) (payload_len : Nat) :
    (outCap < 11 + payload_len + 2 →
      rcm_build_packet outCap outPresent sender_type sender_index receiver_type receiver_index
        seq_num pack_type ack_type encrypt_type cmd_set cmd_id payload payload_len =
        .error .BufferTooSmall) ∧
    (¬ outCap < 11 + payload_len + 2 → 1400 < 11 + payload_len + 2 →
      rcm_build_packet outCap outPresent sender_type sender_index receiver_type receiver_index
        seq_num pack_type ack_type encrypt_type cmd_set cmd_id payload payload_len =
        .error .TooLarge) ∧
    (¬ outCap < 11 + payload_len + 2 → ¬ 1400 < 11 + payload_len + 2 →
      (outPresent = false ∨ (payload = none ∧ 0 < payload_len)) →
      rcm_build_packet outCap outPresent sender_type sender_index receiver_type receiver_index
        seq_num pack_type ack_type encrypt_type cmd_set cmd_id payload payload_len =
        .error .InvalidArgs) ∧
    (¬ outCap < 11 + payload_len + 2 → ¬ 1400 < 11 + payload_len + 2 →
      ¬ (outPresent = false ∨ (payload = none ∧ 0 < payload_len)) →
      ∃ f, rcm_build_packet outCap outPresent sender_type sender_index receiver_type receiver_index
        seq_num pack_type ack_type encrypt_type cmd_set cmd_id payload payload_len = .ok f ∧
      f.length = 11 + payload_len + 2 ∧
      f.getD 0 0 = 0x55 ∧
      (f.getD 1 0) + 256 * (f.getD 2 0) = (11 + payload_len + 2) ||| (1 <<< 10) ∧
      (((f.getD 1 0) + 256 * (f.getD 2 0)) >>> 10) &&& 0x3F = 1 ∧
      duml_crc8 (f.take 3) = f.getD 3 0 ∧
      f.getD 4 0 = (sender_type &&& 0x1F) ||| (sender_index <<< 5) ∧
      f.getD 5 0 = (receiver_type &&& 0x1F) ||| (receiver_index <<< 5) ∧
      f.getD 6 0 = seq_num &&& 0xFF ∧ f.getD 7 0 = (seq_num >>> 8) &&& 0xFF ∧
      f.getD 8 0 = (pack_type <<< 7) ||| (ack_type <<< 5) ||| (encrypt_type &&& 7) ∧
      f.getD 9 0 = cmd_set ∧ f.getD 10 0 = cmd_id ∧
      (∀ i, i < payload_len → f.getD (11 + i) 0 = (payload.getD []).getD i 0) ∧
      duml_crc16 (f.take (11 + payload_len)) =
        (f.getD (11 + payload_len) 0) ||| ((f.getD (11 + payload_len + 1) 0) <<< 8)) := by
  refine ⟨fun h1 => ?_, fun h1 h2 => ?_, fun h1 h2 h3 => ?_, fun h1 h2 h3 => ?_⟩
  · rw [rcm_build_packet, if_pos h1]
  · rw [rcm_build_packet, if_neg h1, if_pos h2]
  · rw [rcm_build_packet, if_neg h1, if_neg h2, if_pos h3]
  · rw [rcm_build_packet, if_neg h1, if_neg h2, if_neg h3]
    refine ⟨_, rfl, ?_, ?_, ?_, ?_, ?_, ?_, ?_, ?_, ?_, ?_, ?_, ?_, ?_, ?_⟩
    · simp [put_u16_le]
      omega
    · simp
    · -- length/version word recombines
      simp only [List.cons_append, List.nil_append]
      simp
      refine u16_bytes_recombine _ ?_
      rw [or_1024_eq _ (by omega)]
      have := Nat.mod_lt (x := 11 + payload_len + 2) (y := 1024) (by norm_num)
      omega
    · -- version field is 1
      simp only [List.cons_append, List.nil_append]
      simp
      rw [u16_bytes_recombine _ (by
        rw [or_1024_eq _ (by omega)]
        have := Nat.mod_lt (x := 11 + payload_len + 2) (y := 1024) (by norm_num)
        omega)]
      rw [or_1024_eq _ (by omega), Nat.shiftRight_eq_div_pow]
      have hr : (11 + payload_len + 2) % 1024 < 1024 := Nat.mod_lt _ (by norm_num)
      rw [show (2 : Nat) ^ 10 = 1024 from by norm_num]
      rw [Nat.add_div_left _ (by norm_num), Nat.div_eq_of_lt hr]
      decide
    · -- header checksum
      simp only [List.cons_append, List.nil_append]
      simp [List.take]
    · simp
    · simp
    · simp
    · simp
    · simp
    · simp
    · simp
    · -- payload copy
      intro i hi
      simp only [List.cons_append, List.nil_append]
      rw [List.getD_eq_getElem?_getD]
      rw [show (11 + i) = (i + 11 : Nat) from by omega]
      simp only [List.getElem?_cons_succ]
      rw [List.getElem?_append_left (by simp [hi])]
      rw [List.getElem?_eq_getElem (by simp [hi])]
      simp
    · -- body checksum recombines
      rw [show (11 + payload_len + 1) = (11 + payload_len) + 1 from rfl]
      have hblen : ([0x55, ((11 + payload_len + 2) ||| (1 <<< 10)) &&& 0xFF,
            (((11 + payload_len + 2) ||| (1 <<< 10)) >>> 8) &&& 0xFF] ++
          [duml_crc8 [0x55, ((11 + payload_len + 2) ||| (1 <<< 10)) &&& 0xFF,
            (((11 + payload_len + 2) ||| (1 <<< 10)) >>> 8) &&& 0xFF]] ++
          [(sender_type &&& 0x1F) ||| (sender_index <<< 5),
           (receiver_type &&& 0x1F) ||| (receiver_index <<< 5),
           seq_num &&& 0xFF, (seq_num >>> 8) &&& 0xFF,
           (pack_type <<< 7) ||| (ack_type <<< 5) ||| (encrypt_type &&& 7),
           cmd_set, cmd_id] ++
          (List.range payload_len).map (fun i => (payload.getD []).getD i 0)).length =
          11 + payload_len := by
        simp
        omega
      rw [List.take_left' hblen]
      set body := ([0x55, ((11 + payload_len + 2) ||| (1 <<< 10)) &&& 0xFF,
            (((11 + payload_len + 2) ||| (1 <<< 10)) >>> 8) &&& 0xFF] ++
          [duml_crc8 [0x55, ((11 + payload_len + 2) ||| (1 <<< 10)) &&& 0xFF,
            (((11 + payload_len + 2) ||| (1 <<< 10)) >>> 8) &&& 0xFF]] ++
          [(sender_type &&& 0x1F) ||| (sender_index <<< 5),
           (receiver_type &&& 0x1F) ||| (receiver_index <<< 5),
           seq_num &&& 0xFF, (seq_num >>> 8) &&& 0xFF,
           (pack_type <<< 7) ||| (ack_type <<< 5) ||| (encrypt_type &&& 7),
           cmd_set, cmd_id] ++
          (List.range payload_len).map (fun i => (payload.getD []).getD i 0)) with hbody
      have hg1 : (body ++ put_u16_le (duml_crc16 body)).getD (11 + payload_len) 0 =
          (duml_crc16 body) &&& 0xFF := by
        rw [List.getD_eq_getElem?_getD, List.getElem?_append_right (by rw [hblen])]
        rw [hblen]
        simp [put_u16_le]
      have hg2 : (body ++ put_u16_le (duml_crc16 body)).getD (11 + payload_len + 1) 0 =
          ((duml_crc16 body) >>> 8) &&& 0xFF := by
        rw [List.getD_eq_getElem?_getD, List.getElem?_append_right (by rw [hblen]; omega)]
        rw [hblen]
        simp [put_u16_le, show 11 + payload_len + 1 - (11 + payload_len) = 1 from by omega]
      rw [hg1, hg2]
      have hlt : duml_crc16 body < 65536 := duml_crc16_lt body
      rw [lo_or_hi_shift _ _ (by
        have := Nat.and_le_right (n := duml_crc16 body) (m := 0xFF)
        omega)]
      exact (u16_bytes_recombine _ hlt).symm

theorem crc16_table_nodup : crc16_table.Nodup := by decide

theorem crc16_table_hi_nodup : (crc16_table.map (fun x => x >>> 8)).Nodup := by decide

theorem xor_left_cancel_nat (x a b : Nat) (h : x ^^^ a = x ^^^ b) : a = b := by
  have h2 := congrArg (fun t => x ^^^ t) h
  simpa [← Nat.xor_assoc] using h2

theorem xor_right_cancel_nat (x a b : Nat) (h : a ^^^ x = b ^^^ x) : a = b := by
  have h2 := congrArg (fun t => t ^^^ x) h
  simpa [Nat.xor_assoc] using h2

theorem shiftRight_xor_distrib (x y i : Nat) : (x ^^^ y) >>> i = (x >>> i) ^^^ (y >>> i) := by
  apply Nat.eq_of_testBit_eq
  intro j
  simp [Nat.testBit_shiftRight, Nat.testBit_xor]

theorem and255_of_lt {b : Nat} (h : b < 256) : b &&& 255 = b := by
  have hx := Nat.and_pow_two_sub_one_eq_mod b 8
  norm_num at hx
  rw [hx]
  omega

theorem and255_lt (b : Nat) : b &&& 255 < 256 := by
  have := Nat.and_le_right (n := b) (m := 255)
  omega

theorem crc16_table_getD_inj (j1 j2 : Nat) (h1 : j1 < 256) (h2 : j2 < 256)
    (h : crc16_table.getD j1 0 = crc16_table.getD j2 0) : j1 = j2 := by
  have e1 : j1 < crc16_table.length := by rw [crc16_table_length]; exact h1
  have e2 : j2 < crc16_table.length := by rw [crc16_table_length]; exact h2
  rw [List.getD_eq_getElem?_getD, List.getElem?_eq_getElem e1,
    List.getD_eq_getElem?_getD, List.getElem?_eq_getElem e2] at h
  simp only [Option.getD_some] at h
  exact (crc16_table_nodup.getElem_inj_iff).mp h

theorem crc16_table_hi_getD_inj (j1 j2 : Nat) (h1 : j1 < 256) (h2 : j2 < 256)
    (h : crc16_table.getD j1 0 >>> 8 = crc16_table.getD j2 0 >>> 8) : j1 = j2 := by
  have e1 : j1 < crc16_table.length := by rw [crc16_table_length]; exact h1
  have e2 : j2 < crc16_table.length := by rw [crc16_table_length]; exact h2
  have m1 : j1 < (crc16_table.map (fun x => x >>> 8)).length := by
    rw [List.length_map]; exact e1
  have m2 : j2 < (crc16_table.map (fun x => x >>> 8)).length := by
    rw [List.length_map]; exact e2
  rw [List.getD_eq_getElem?_getD, List.getElem?_eq_getElem e1,
    List.getD_eq_getElem?_getD, List.getElem?_eq_getElem e2] at h
  simp only [Option.getD_some] at h
  have hmap : (crc16_table.map (fun x => x >>> 8)).get ⟨j1, m1⟩ =
      (crc16_table.map (fun x => x >>> 8)).get ⟨j2, m2⟩ := by
    simp only [List.get_eq_getElem, List.getElem_map]
    exact h
  have hfin := (crc16_table_hi_nodup.get_inj_iff).mp hmap
  simpa using hfin

theorem crc16_step_byte_inj (s b1 b2 : Nat) (hb1 : b1 < 256) (hb2 : b2 < 256)
    (hne : b1 ≠ b2) : crc16_step s b1 ≠ crc16_step s b2 := by
  intro h
  unfold crc16_step at h
  have htab : crc16_table.getD ((s ^^^ b1) &&& 0xFF) 0 =
      crc16_table.getD ((s ^^^ b2) &&& 0xFF) 0 :=
    xor_right_cancel_nat _ _ _ h
  have hj := crc16_table_getD_inj _ _ (and255_lt _) (and255_lt _) htab
  rw [Nat.and_xor_distrib_right, Nat.and_xor_distrib_right,
    and255_of_lt hb1, and255_of_lt hb2] at hj
  exact hne (xor_left_cancel_nat _ _ _ hj)

theorem crc16_step_state_inj (b s1 s2 : Nat) (h1 : s1 < 65536) (h2 : s2 < 65536)
    (hne : s1 ≠ s2) : crc16_step s1 b ≠ crc16_step s2 b := by
  intro h
  unfold crc16_step at h
  have hs16a : s1 >>> 8 >>> 8 = 0 := by
    rw [← Nat.shiftRight_add, Nat.shiftRight_eq_div_pow]
    exact Nat.div_eq_of_lt (by norm_num; omega)
  have hs16b : s2 >>> 8 >>> 8 = 0 := by
    rw [← Nat.shiftRight_add, Nat.shiftRight_eq_div_pow]
    exact Nat.div_eq_of_lt (by norm_num; omega)
  have hhi := congrArg (fun t => t >>> 8) h
  simp only [shiftRight_xor_distrib, hs16a, hs16b, Nat.xor_zero] at hhi
  have hj := crc16_table_hi_getD_inj _ _ (and255_lt _) (and255_lt _) hhi
  rw [hj] at h
  have hsh : s1 >>> 8 = s2 >>> 8 := xor_left_cancel_nat _ _ _ h
  have hjj := hj
  rw [Nat.and_xor_distrib_right, Nat.and_xor_distrib_right] at hjj
  have hlo : s1 &&& 255 = s2 &&& 255 := xor_right_cancel_nat _ _ _ (by
    exact_mod_cast hjj)
  apply hne
  have r1 := u16_bytes_recombine s1 h1
  have r2 := u16_bytes_recombine s2 h2
  rw [← r1, ← r2, hlo, hsh]

theorem foldl_crc16_inj (l : List Nat) : ∀ s1 s2, s1 < 65536 → s2 < 65536 → s1 ≠ s2 →
    l.foldl crc16_step s1 ≠ l.foldl crc16_step s2 := by
  induction l with
  | nil => intro s1 s2 _ _ hne; simpa using hne
  | cons b rest ih =>
    intro s1 s2 h1 h2 hne
    simp only [List.foldl_cons]
    exact ih _ _ (crc16_step_lt _ _ h1) (crc16_step_lt _ _ h2)
      (crc16_step_state_inj b _ _ h1 h2 hne)

theorem duml_crc16_set_ne (xs : List Nat) (i c : Nat) (hi : i < xs.length)
    (hc : c < 256) (hxi : xs.getD i 0 < 256) (hne : c ≠ xs.getD i 0) :
    duml_crc16 (xs.set i c) ≠ duml_crc16 xs := by
  have hgi : xs[i]? = some (xs.getD i 0) := by
    simp [List.getD_eq_getElem?_getD, List.getElem?_eq_getElem hi]
  have hdecomp : xs = xs.take i ++ xs.getD i 0 :: xs.drop (i + 1) := by
    conv_lhs => rw [← List.take_append_drop (i + 1) xs]
    rw [List.take_succ, hgi]
    simp
  have hset : xs.set i c = xs.take i ++ c :: xs.drop (i + 1) :=
    List.set_eq_take_cons_drop c hi
  have hL : duml_crc16 (xs.set i c) =
      (xs.drop (i + 1)).foldl crc16_step
        (crc16_step ((xs.take i).foldl crc16_step 0x3692) c) := by
    rw [hset, duml_crc16, List.foldl_append, List.foldl_cons]
  have hR : duml_crc16 xs =
      (xs.drop (i + 1)).foldl crc16_step
        (crc16_step ((xs.take i).foldl crc16_step 0x3692) (xs.getD i 0)) := by
    conv_lhs => rw [hdecomp]
    rw [duml_crc16, List.foldl_append, List.foldl_cons]
  rw [hL, hR]
  have hs : (xs.take i).foldl crc16_step 0x3692 < 65536 :=
    foldl_crc16_lt _ _ (by norm_num)
  exact foldl_crc16_inj _ _ _ (crc16_step_lt _ _ hs) (crc16_step_lt _ _ hs)
    (crc16_step_byte_inj _ _ _ hc hxi hne)

theorem getD_set_ne (l : List Nat) (i j c : Nat) (h : i ≠ j) :
    (l.set i c).getD j 0 = l.getD j 0 := by
  rw [List.getD_eq_getElem?_getD, List.getD_eq_getElem?_getD, List.getElem?_set_ne h]

theorem scan_no_sof_consume (r : List Nat) (fl : Nat) (hns : ∀ x ∈ r, x ≠ DUML_SOF) :
    try_decode_frame ⟨r, .scanSof, fl⟩ = (⟨[], .scanSof, fl⟩, -1, none) := by
  induction r with
  | nil => exact try_decode_empty _ rfl
  | cons hd tl ih =>
    rw [try_decode_scan_skip _ rfl (by simp) (by simpa using hns hd (by simp))]
    simpa using ih (fun x hx => hns x (by simp [hx]))

theorem feed_no_sof (bs : List Nat) (fl : Nat) (hns : ∀ x ∈ bs, x ≠ DUML_SOF) :
    rcm_feed ⟨[], .scanSof, fl⟩ bs = (⟨[], .scanSof, fl⟩, 0, []) := by
  induction bs with
  | nil => rfl
  | cons hd tl ih =>
    rw [rcm_feed_cons']
    rw [ring_push_small _ _ (by simp [RING_SIZE])]
    simp only [List.nil_append]
    have hstep : try_decode_frame ⟨[hd], .scanSof, fl⟩ = (⟨[], .scanSof, fl⟩, -1, none) :=
      scan_no_sof_consume [hd] fl (by
        intro x hx
        simp only [List.mem_singleton] at hx
        rw [hx]
        exact hns hd (by simp))
    rw [drain_neg _ (by rw [hstep]; norm_num), hstep]
    simp [ih (fun x hx => hns x (by simp [hx]))]

/-- C5: a single-byte corruption of a well-formed push frame anywhere in
bytes 4..L-3 (strictly inside the CRC16-protected region, after the
header) is caught by the body-checksum gate: the parser consumes the
whole corrupted frame and no callback fires. -/
theorem corrupted_frame_silent (F : List Nat) (L i c : Nat)
    (hwf : WellFormedPushFrame F L) (hi4 : 4 ≤ i) (hiL : i ≤ L - 3)
    (hc : c < 256) (hne : c ≠ F.getD i 0) :
    rcm_feed rcm_create (F.set i c) = (⟨[], .scanSof, L⟩, 0, []) := by
  obtain ⟨hlen, hmin, hmax, hbytes, hsof, hlenf, hcrc8, hcrc16, hcmd9, hcmd10, hpay⟩ := hwf
  simp only [DUML_MIN_FRAME_LEN] at hmin
  simp only [DUML_MAX_FRAME_LEN] at hmax
  have hgd : ∀ j, i ≠ j → (F.set i c).getD j 0 = F.getD j 0 := fun j hj =>
    getD_set_ne F i j c hj
  have htake3 : (F.set i c).take 3 = F.take 3 := by
    rw [List.set_take]
    exact List.set_eq_of_length_le (by
      simp only [List.length_take]
      omega)
  have hcond : ¬ duml_crc16 ((F.set i c).take (L - 2)) =
      ((F.set i c).getD (L - 2) 0) ||| (((F.set i c).getD (L - 1) 0) <<< 8) := by
    have hiL2 : i < L - 2 := by omega
    have htakeC : (F.set i c).take (L - 2) = (F.take (L - 2)).set i c := List.set_take
    rw [htakeC, hgd (L - 2) (by omega), hgd (L - 1) (by omega), ← hcrc16]
    have hit : i < (F.take (L - 2)).length := by
      simp only [List.length_take]
      omega
    have hgtake : (F.take (L - 2)).getD i 0 = F.getD i 0 := by
      rw [List.getD_eq_getElem?_getD, List.getD_eq_getElem?_getD,
        List.getElem?_take_of_lt hiL2]
    exact duml_crc16_set_ne (F.take (L - 2)) i c hit hc
      (by rw [hgtake]; exact getD_lt_of_forall hbytes (by omega))
      (by rw [hgtake]; exact hne)
  rw [rcm_feed_full_frame (F.set i c) L
    (by rw [List.length_set]; exact hlen)
    hmin
    (by rw [hgd 0 (by omega)]; exact hsof)
    (by rw [hgd 1 (by omega), hgd 2 (by omega)]; exact hlenf)
    (by rw [htake3, hgd 3 (by omega)]; exact hcrc8)]
  rw [if_neg hcond]

theorem corrupted_frame_silent_witness :
    WellFormedPushFrame push30 30 ∧ (4:Nat) ≤ 4 ∧ (4:Nat) ≤ 30 - 3 ∧ (7:Nat) < 256 ∧
    (7:Nat) ≠ push30.getD 4 0 ∧
    rcm_feed rcm_create (push30.set 4 7) = (⟨[], .scanSof, 30⟩, 0, []) :=
  ⟨by decide, by decide, by decide, by decide, by decide,
    corrupted_frame_silent push30 30 4 7 (by decide) (by decide) (by decide)
      (by decide) (by decide)⟩

/-- C5 counterexample: `nest43` is a well-formed push frame of length 43
whose payload embeds the valid frame `push30`; corrupting byte 3 (the
header-checksum byte, inside the claimed protected region 0..L-3) makes
the parser resynchronise onto the embedded frame and fire one callback,
not zero. -/
theorem corrupted_frame_callback :
    WellFormedPushFrame nest43 43 ∧ (3:Nat) ≤ 43 - 3 ∧ (167:Nat) < 256 ∧
    (167:Nat) ≠ nest43.getD 3 0 ∧
    ((rcm_feed rcm_create (nest43.set 3 167)).2.2).length = 1 := by
  refine ⟨by decide, by decide, by decide, by decide, ?_⟩
  have hsplit : nest43.set 3 167 =
      ([0x55, 43, 4, 167] ++ [6, 2, 0, 0, 0, 6, 5]) ++ (push30 ++ [22, 30]) := by
    decide
  have h4 : try_decode_frame ⟨[0x55, 43, 4, 167], .scanSof, 0⟩ =
      (⟨[], .scanSof, 0⟩, -1, none) := by
    rw [try_decode_scan_crc8_fail _ rfl (by simp) (by decide) (by decide) (by decide)]
    exact scan_no_sof_consume [43, 4, 167] 0 (by decide)
  have f4 : rcm_feed (⟨[0x55, 43, 4], .scanSof, 0⟩ : RcmParser) [167] =
      (⟨[], .scanSof, 0⟩, 0, []) := by
    rw [rcm_feed_cons']
    rw [ring_push_small _ _ (by simp [RING_SIZE])]
    simp only [List.cons_append, List.nil_append]
    rw [drain_neg _ (by rw [h4]; norm_num), h4]
    simp [rcm_feed_nil]
  have h3 : try_decode_frame ⟨[0x55, 43, 4], .scanSof, 0⟩ =
      (⟨[0x55, 43, 4], .scanSof, 0⟩, -1, none) :=
    try_decode_scan_short _ rfl (by simp) (by decide) (by decide)
  have f3 : rcm_feed (⟨[0x55, 43], .scanSof, 0⟩ : RcmParser) [4, 167] =
      (⟨[], .scanSof, 0⟩, 0, []) := by
    rw [rcm_feed_cons']
    rw [ring_push_small _ _ (by simp [RING_SIZE])]
    simp only [List.cons_append, List.nil_append]
    rw [drain_neg _ (by rw [h3]; norm_num), h3]
    simp [f4]
  have h2 : try_decode_frame ⟨[0x55, 43], .scanSof, 0⟩ =
      (⟨[0x55, 43], .scanSof, 0⟩, -1, none) :=
    try_decode_scan_short _ rfl (by simp) (by decide) (by decide)
  have f2 : rcm_feed (⟨[0x55], .scanSof, 0⟩ : RcmParser) [43, 4, 167] =
      (⟨[], .scanSof, 0⟩, 0, []) := by
    rw [rcm_feed_cons']
    rw [ring_push_small _ _ (by simp [RING_SIZE])]
    simp only [List.cons_append, List.nil_append]
    rw [drain_neg _ (by rw [h2]; norm_num), h2]
    simp [f3]
  have h1 : try_decode_frame ⟨[0x55], .scanSof, 0⟩ =
      (⟨[0x55], .scanSof, 0⟩, -1, none) :=
    try_decode_scan_short _ rfl (by simp) (by decide) (by decide)
  have hA : rcm_feed rcm_create [0x55, 43, 4, 167] = (⟨[], .scanSof, 0⟩, 0, []) := by
    rw [show rcm_create = (⟨[], .scanSof, 0⟩ : RcmParser) from rfl]
    rw [rcm_feed_cons']
    rw [ring_push_small _ _ (by simp [RING_SIZE])]
    simp only [List.nil_append]
    rw [drain_neg _ (by rw [h1]; norm_num), h1]
    simp [f2]
  have hB : rcm_feed (⟨[], .scanSof, 0⟩ : RcmParser) [6, 2, 0, 0, 0, 6, 5] =
      (⟨[], .scanSof, 0⟩, 0, []) :=
    feed_no_sof _ _ (by decide)
  have hAB : rcm_feed rcm_create ([0x55, 43, 4, 167] ++ [6, 2, 0, 0, 0, 6, 5]) =
      (⟨[], .scanSof, 0⟩, 0, []) := by
    rw [rcm_feed_append, hA]
    simp [hB]
  have hfd : (frame_dispatch push30 30).isSome = true := by decide
  obtain ⟨st, hst⟩ := Option.isSome_iff_exists.mp hfd
  have hC : rcm_feed (⟨[], .scanSof, 0⟩ : RcmParser) push30 =
      (⟨[], .scanSof, 30⟩, 1, [st]) := by
    rw [show (⟨[], .scanSof, 0⟩ : RcmParser) = rcm_create from rfl]
    rw [rcm_feed_full_frame push30 30 (by decide) (by decide) (by decide) (by decide)
      (by decide)]
    rw [if_pos (by decide)]
    rw [hst]
  have hD : rcm_feed (⟨[], .scanSof, 30⟩ : RcmParser) [22, 30] =
      (⟨[], .scanSof, 30⟩, 0, []) :=
    feed_no_sof _ _ (by decide)
  have hCD : rcm_feed (⟨[], .scanSof, 0⟩ : RcmParser) (push30 ++ [22, 30]) =
      (⟨[], .scanSof, 30⟩, 1, [st]) := by
    rw [rcm_feed_append, hC]
    simp [hD]
  rw [hsplit, rcm_feed_append, hAB]
  simp [hCD]

/-- C4: resynchronisation after a validation failure, as the code
actually does it: a bad header checksum or an out-of-range length field
makes the scanner consume exactly one byte and rescan from
`ScanningForStart`; a bad body checksum instead consumes the whole
`frame_len`-byte frame before rescanning. -/
theorem resync_on_failure (p : RcmParser) :
    (p.pstate = .scanSof → p.ring ≠ [] → p.ring.getD 0 0 = DUML_SOF →
      ¬ p.ring.length < 4 → duml_crc8 (p.ring.take 3) ≠ p.ring.getD 3 0 →
      try_decode_frame p = try_decode_frame ⟨p.ring.drop 1, .scanSof, p.frame_len⟩) ∧
    (p.pstate = .scanSof → p.ring ≠ [] → p.ring.getD 0 0 = DUML_SOF →
      ¬ p.ring.length < 4 → ¬ duml_crc8 (p.ring.take 3) ≠ p.ring.getD 3 0 →
      (((p.ring.getD 1 0) ||| ((p.ring.getD 2 0) <<< 8)) &&& 0x03FF < DUML_MIN_FRAME_LEN ∨
        DUML_MAX_FRAME_LEN < ((p.ring.getD 1 0) ||| ((p.ring.getD 2 0) <<< 8)) &&& 0x03FF) →
      try_decode_frame p = try_decode_frame
        ⟨p.ring.drop 1, .scanSof,
          ((p.ring.getD 1 0) ||| ((p.ring.getD 2 0) <<< 8)) &&& 0x03FF⟩) ∧
    (p.pstate = .readFrame → p.ring ≠ [] → ¬ p.ring.length < p.frame_len →
      duml_crc16 ((p.ring.take p.frame_len).take (p.frame_len - 2)) ≠
        ((p.ring.take p.frame_len).getD (p.frame_len - 2) 0) |||
          (((p.ring.take p.frame_len).getD (p.frame_len - 1) 0) <<< 8) →
      try_decode_frame p = try_decode_frame ⟨p.ring.drop p.frame_len, .scanSof, p.frame_len⟩) :=
  ⟨fun hs hne hh hlen hcrc => try_decode_scan_crc8_fail p hs hne hh hlen hcrc,
   fun hs hne hh hlen hcrc hfl => try_decode_scan_badlen p hs hne hh hlen hcrc hfl,
   fun hs hne hlen hcrc => try_decode_read_crc_fail p hs hne hlen hcrc⟩

theorem scan_skip_prefix (pre r : List Nat) (fl : Nat)
    (hns : ∀ x ∈ pre, x ≠ DUML_SOF) :
    try_decode_frame ⟨pre ++ r, .scanSof, fl⟩ = try_decode_frame ⟨r, .scanSof, fl⟩ := by
  induction pre with
  | nil => rfl
  | cons hd tl ih =>
    rw [try_decode_scan_skip _ rfl (by simp) (by simpa using hns hd (by simp))]
    simpa using ih (fun x hx => hns x (by simp [hx]))

/-- C4 counterexample: the frame `nest43.set 4 7` (the well-formed
43-byte frame `nest43` with its routing byte changed) passes every
header gate and fails only the body checksum, and its bytes from offset
11 on hold the complete valid frame `push30`. At this validation
failure the code consumes all 43 bytes, decodes nothing, and a full
feed of the frame fires zero callbacks; consuming exactly one byte and
retrying from `ScanningForStart` instead reaches the embedded frame and
fires one callback, so the code's step at this failure is not the
one-byte resynchronisation the claim describes. -/
theorem resync_one_byte_refuted :
    (nest43.set 4 7).getD 0 0 = DUML_SOF ∧
    duml_crc8 ((nest43.set 4 7).take 3) = (nest43.set 4 7).getD 3 0 ∧
    (((nest43.set 4 7).getD 1 0) ||| (((nest43.set 4 7).getD 2 0) <<< 8)) &&& 0x03FF = 43 ∧
    duml_crc16 ((nest43.set 4 7).take 41) ≠
      ((nest43.set 4 7).getD 41 0) ||| (((nest43.set 4 7).getD 42 0) <<< 8) ∧
    try_decode_frame ⟨nest43.set 4 7, .readFrame, 43⟩ = (⟨[], .scanSof, 43⟩, -1, none) ∧
    rcm_feed rcm_create (nest43.set 4 7) = (⟨[], .scanSof, 43⟩, 0, []) ∧
    (try_decode_frame ⟨(nest43.set 4 7).drop 1, .scanSof, 43⟩).2.1 = 1 ∧
    try_decode_frame ⟨nest43.set 4 7, .readFrame, 43⟩ ≠
      try_decode_frame ⟨(nest43.set 4 7).drop 1, .scanSof, 43⟩ := by
  have hfd : (frame_dispatch push30 30).isSome = true := by decide
  obtain ⟨st, hst⟩ := Option.isSome_iff_exists.mp hfd
  have h5 : try_decode_frame ⟨nest43.set 4 7, .readFrame, 43⟩ =
      (⟨[], .scanSof, 43⟩, -1, none) := by
    rw [try_decode_read_crc_fail _ rfl (by decide) (by decide) (by decide)]
    rw [show (⟨nest43.set 4 7, .readFrame, 43⟩ : RcmParser).ring.drop
      (⟨nest43.set 4 7, .readFrame, 43⟩ : RcmParser).frame_len = [] from by decide]
    exact try_decode_empty _ rfl
  have hfeed : rcm_feed rcm_create (nest43.set 4 7) = (⟨[], .scanSof, 43⟩, 0, []) := by
    rw [rcm_feed_full_frame (nest43.set 4 7) 43 (by decide) (by decide) (by decide)
      (by decide) (by decide)]
    rw [if_neg (by decide)]
  have hdrop1 : (nest43.set 4 7).drop 1 =
      [43, 4, 88, 7, 2, 0, 0, 0, 6, 5] ++ (push30 ++ [22, 30]) := by decide
  have h6 : try_decode_frame ⟨(nest43.set 4 7).drop 1, .scanSof, 43⟩ =
      (⟨[22, 30], .scanSof, 30⟩, 1, some st) := by
    rw [hdrop1, scan_skip_prefix _ _ _ (by decide)]
    rw [try_decode_scan_goodlen _ rfl (by simp) (by decide) (by decide) (by decide)
      (by decide)]
    rw [show ((((push30 ++ [22, 30] : List Nat)).getD 1 0) |||
      (((push30 ++ [22, 30] : List Nat).getD 2 0) <<< 8)) &&& 0x03FF = 30 from by decide]
    rw [try_decode_read_dispatch _ rfl (by simp) (by decide) (by decide)]
    rw [show ((⟨push30 ++ [22, 30], .readFrame, 30⟩ : RcmParser).ring.take
      (⟨push30 ++ [22, 30], .readFrame, 30⟩ : RcmParser).frame_len) = push30 from by decide]
    rw [show ((⟨push30 ++ [22, 30], .readFrame, 30⟩ : RcmParser).ring.drop
      (⟨push30 ++ [22, 30], .readFrame, 30⟩ : RcmParser).frame_len) = [22, 30] from by decide]
    rw [hst]
  refine ⟨by decide, by decide, by decide, by decide, h5, hfeed, by rw [h6], ?_⟩
  rw [h5, h6]
  intro hc
  have hc2 := congrArg (fun t => t.2.1) hc
  norm_num at hc2

theorem rcm_parse_payload_layout_witness :
    (17:Nat) ≤ (List.replicate 17 0 : List Nat).length ∧
    (∀ x ∈ (List.replicate 17 0 : List Nat), x < 256) ∧
    (rcm_parse_payload (some (List.replicate 17 0)) true).isSome = true :=
  ⟨by decide, by decide, by
    rw [rcm_parse_payload_layout (List.replicate 17 0) (by decide) (by decide)]
    rfl⟩

theorem try_decode_frame_dispatch_witness :
    push30.length = 30 ∧ (13:Nat) ≤ 30 ∧
    try_decode_frame ⟨push30 ++ [], .readFrame, 30⟩ =
      (⟨[], .scanSof, 30⟩, (dispatch_reference push30 30).1,
        (dispatch_reference push30 30).2) :=
  ⟨by decide, by decide,
    try_decode_frame_dispatch push30 [] 30 (by decide) (by decide) (by decide)⟩

theorem decode_encode_roundtrip_witness :
    ((-0x400 : Int) ≤ 0 ∧ (0 : Int) ≤ 0x3FF ∧ (-31 : Int) ≤ 0 ∧ (0 : Int) ≤ 31) ∧
    rcm_parse_payload (some (build_payload ⟨false, false, false, false, false, false, false,
      ⟨false, false, false, false, false⟩, .Sport, ⟨0, 0⟩, ⟨0, 0⟩, 0, 0, 0⟩)) true =
      some ⟨false, false, false, false, false, false, false,
      ⟨false, false, false, false, false⟩, .Sport, ⟨0, 0⟩, ⟨0, 0⟩, 0, 0, 0⟩ :=
  ⟨⟨by decide, by decide, by decide, by decide⟩,
    decode_encode_roundtrip _ (by decide) (by decide) (by decide) (by decide) (by decide)
      (by decide) (by decide) (by decide) (by decide) (by decide) (by decide) (by decide)
      (by decide) (by decide)⟩

theorem rcm_parse_payload_reserved_independent_witness :
    (17:Nat) ≤ (List.replicate 17 0 : List Nat).length ∧
    (17:Nat) ≤ (0x8F :: 0x06 :: 0xE0 :: 0xFF :: 0x81 :: List.replicate 12 0 : List Nat).length ∧
    List.replicate 17 0 ≠ (0x8F :: 0x06 :: 0xE0 :: 0xFF :: 0x81 :: List.replicate 12 0 : List Nat) ∧
    rcm_parse_payload (some (List.replicate 17 0)) true =
      rcm_parse_payload (some (0x8F :: 0x06 :: 0xE0 :: 0xFF :: 0x81 :: List.replicate 12 0)) true :=
  ⟨by decide, by decide, by decide,
    rcm_parse_payload_reserved_independent _ _ (by decide) (by decide) (by decide)
      (by decide) (by decide) (by decide)
      (by intro i h5 h16; interval_cases i <;> decide)⟩

end RcMonitor
